import Mathlib

/-!
# Order lifecycle and inventory engine: shallow embedding

Shallow embedding of the order/inventory subsystem of the flower sales
system (`internal/order/service.go`, `internal/order/log_service.go`,
`internal/order/log_repository.go`, the flower repository, and the
error-classification branch of `internal/handler/order_handler.go`).

Modelling conventions:
* Go `int`/`int64` arithmetic wraps at 64 bits; every arithmetic step the
  code performs on stock counters and monetary values goes through `wrap64`.
* Go errors are plain strings built with `fmt.Errorf`; they are modelled as
  `String` values carrying the exact message the code formats (`%w` wrapping
  becomes string concatenation, `%s`/`%d` become `toString`).
* The SQL stores are modelled as in-memory lists inside `Db`.  A repository
  write (`UpdateStock`, `orderRepository.Create`, `UpdateStatus`,
  `CreateLog`) executes one SQL statement; the statement can fail at the
  database layer, which is modelled by an environment `Env` of
  failure-injection streams indexed by the per-operation call counter held
  in `St`.  `none` means the statement executes normally; `some m` means the
  driver returns error message `m` and the statement has no effect (a single
  SQL statement is atomic).  `orderRepository.Create` runs inside one
  transaction with `defer tx.Rollback()`, so a failure leaves the order
  store untouched.
* `time.Time` fields and `GenerateOrderNo` (wall clock + `math/rand`) are
  not pure; the generated order number is passed to `createOrder` as an
  explicit argument and timestamps are omitted (no modelled claim mentions
  them).
* `toResponse` only copies fields and formats timestamps, so `getOrder`
  returns the underlying order and line items directly.
-/

namespace FlowerSales

/-- Wraparound of signed 64-bit arithmetic: `9223372036854775808 = 2 ^ 63`
and `18446744073709551616 = 2 ^ 64`.  Every Go `int`/`int64` operation the
embedded code performs is reduced modulo this range. -/
def wrap64 (x : Int) : Int :=
  (x + 9223372036854775808) % 18446744073709551616 - 9223372036854775808

/-- `flower.Decimal`: a monetary amount stored in cents (`Value int64`). -/
structure Decimal where
  value : Int
  deriving Repr, DecidableEq

/-- `flower.Flower` (fields the order engine reads; `Origin`, `ShelfLife`,
`Preservation`, `PurchasePrice` and the timestamps are never consulted by
the modelled operations). -/
structure Flower where
  sku : String
  name : String
  salePrice : Decimal
  stock : Int
  isActive : Bool
  deriving Repr, DecidableEq

/-- A row of the `users` table (`id`, `username`, `role`); roles used by the
system are `"customer"`, `"clerk"` and `"admin"`. -/
structure User where
  id : Int
  username : String
  role : String
  deriving Repr, DecidableEq

/-- `order.OrderStatus` constant `StatusPending`. -/
def StatusPending : String := "pending"

/-- `order.OrderStatus` constant `StatusCompleted`. -/
def StatusCompleted : String := "completed"

/-- `order.OrderStatus` constant `StatusCancelled`. -/
def StatusCancelled : String := "cancelled"

/-- `order.Order` (timestamps omitted, see module docstring). -/
structure Order where
  id : Nat
  orderNo : String
  userID : Int
  addressID : Int
  totalAmount : Decimal
  status : String
  deriving Repr, DecidableEq

/-- `order.OrderItem` (the row `ID` assigned by the database is never read
back by the modelled operations and is omitted). -/
structure OrderItem where
  orderID : Nat
  flowerSKU : String
  flowerName : String
  quantity : Int
  unitPrice : Decimal
  subtotal : Decimal
  deriving Repr, DecidableEq

/-- `order.OrderLog` (timestamp omitted). -/
structure OrderLog where
  orderID : Nat
  operatorID : Int
  action : String
  oldStatus : String
  newStatus : String
  deriving Repr, DecidableEq

/-- An order header persisted together with its line items (the unit written
by `orderRepository.Create` and read back by `GetByID`/`GetByOrderNo`). -/
structure StoredOrder where
  ord : Order
  items : List OrderItem
  deriving Repr, DecidableEq

/-- The persistent store: `flowers`, `users`, `orders` (+ line items),
`order_logs` tables and the auto-increment counter for order ids. -/
structure Db where
  flowers : List Flower
  users : List User
  orders : List StoredOrder
  logs : List OrderLog
  nextId : Nat
  deriving Repr, DecidableEq

/-- Failure-injection environment for the four SQL write statements: the
`n`-th call (0-based, counted per statement kind by `St`) fails with the
given driver message instead of executing.  `fun _ => none` is a run in
which the database never fails. -/
structure Env where
  usFail : Nat → Option String
  ocFail : Nat → Option String
  stFail : Nat → Option String
  lgFail : Nat → Option String

/-- An environment in which every SQL statement executes normally. -/
def Env.clean : Env := ⟨fun _ => none, fun _ => none, fun _ => none, fun _ => none⟩

/-- Execution state of one engine invocation: the store plus the call
counters indexing the failure-injection streams of `Env`. -/
structure St where
  db : Db
  us : Nat
  oc : Nat
  st : Nat
  lg : Nat

/-- Start state of an engine invocation on store `db`. -/
def St.init (db : Db) : St := ⟨db, 0, 0, 0, 0⟩

/-- `flowerRepository.GetBySKU`: point lookup, `sql.ErrNoRows` becomes the
formatted not-found error. -/
def getBySKU (db : Db) (sku : String) : Except String Flower :=
  match db.flowers.find? (fun f => f.sku == sku) with
  | some f => .ok f
  | none => .error ("flower not found: " ++ sku)

/-- Effect of the SQL statement
`UPDATE flowers SET stock = stock + ? WHERE sku = ?`: every matching row's
stock is adjusted by `delta` (64-bit wraparound, no negativity guard). -/
def applyAdj (fl : List Flower) (sku : String) (delta : Int) : List Flower :=
  fl.map (fun f => if f.sku == sku then { f with stock := wrap64 (f.stock + delta) } else f)

/-- `flowerRepository.UpdateStock`: one `UPDATE` statement; a driver failure
is injected from `Env.usFail`, `RowsAffected = 0` yields the not-found
error, otherwise the adjustment is applied. -/
def updateStock (env : Env) (s : St) (sku : String) (delta : Int) :
    Except String Unit × St :=
  let n := s.us
  let s1 : St := { s with us := n + 1 }
  match env.usFail n with
  | some m => (.error m, s1)
  | none =>
    if s1.db.flowers.any (fun f => f.sku == sku) then
      (.ok (), { s1 with db := { s1.db with flowers := applyAdj s1.db.flowers sku delta } })
    else
      (.error ("flower not found: " ++ sku), s1)

/-- `orderRepository.Create`: inserts the header and all line items inside
one transaction (`defer tx.Rollback()`), assigning the auto-increment id;
on an injected failure nothing is persisted. -/
def orderCreate (env : Env) (s : St) (ord : Order) (items : List OrderItem) :
    Except String Nat × St :=
  let n := s.oc
  let s1 : St := { s with oc := n + 1 }
  match env.ocFail n with
  | some m => (.error m, s1)
  | none =>
    let oid := s1.db.nextId
    let ord' : Order := { ord with id := oid }
    let items' := items.map (fun it => { it with orderID := oid })
    (.ok oid, { s1 with db := { s1.db with
        orders := s1.db.orders ++ [⟨ord', items'⟩],
        nextId := oid + 1 } })

/-- `orderRepository.GetByID`. -/
def getByID (db : Db) (oid : Nat) : Except String (Order × List OrderItem) :=
  match db.orders.find? (fun so => so.ord.id == oid) with
  | some so => .ok (so.ord, so.items)
  | none => .error ("order not found: " ++ toString oid)

/-- `orderRepository.GetByOrderNo`. -/
def getByOrderNo (db : Db) (orderNo : String) : Except String (Order × List OrderItem) :=
  match db.orders.find? (fun so => so.ord.orderNo == orderNo) with
  | some so => .ok (so.ord, so.items)
  | none => .error ("order not found: " ++ orderNo)

/-- `orderRepository.UpdateStatus`: one `UPDATE orders SET status = ?`
statement; `RowsAffected = 0` yields the not-found error. -/
def updateStatus (env : Env) (s : St) (oid : Nat) (status : String) :
    Except String Unit × St :=
  let n := s.st
  let s1 : St := { s with st := n + 1 }
  match env.stFail n with
  | some m => (.error m, s1)
  | none =>
    if s1.db.orders.any (fun so => so.ord.id == oid) then
      (.ok (), { s1 with db := { s1.db with
          orders := s1.db.orders.map (fun so =>
            if so.ord.id == oid then { so with ord := { so.ord with status := status } } else so) } })
    else
      (.error ("order not found: " ++ toString oid), s1)

/-- `orderLogRepository.CreateLog`: appends one audit row. -/
def createLog (env : Env) (s : St) (log : OrderLog) : Except String Unit × St :=
  let n := s.lg
  let s1 : St := { s with lg := n + 1 }
  match env.lgFail n with
  | some m => (.error m, s1)
  | none => (.ok (), { s1 with db := { s1.db with logs := s1.db.logs ++ [log] } })

/-- `order.NewOrder` (the generated order number is passed in, see module
docstring). -/
def NewOrder (userID addressID : Int) (orderNo : String) : Order :=
  { id := 0, orderNo := orderNo, userID := userID, addressID := addressID,
    totalAmount := ⟨0⟩, status := StatusPending }

/-- `order.NewOrderItem`: snapshots name and unit price and computes
`Subtotal = UnitPrice * int64(Quantity)` (64-bit wraparound). -/
def NewOrderItem (orderID : Nat) (flowerSKU flowerName : String) (quantity : Int)
    (unitPrice : Int) : OrderItem :=
  { orderID := orderID, flowerSKU := flowerSKU, flowerName := flowerName,
    quantity := quantity, unitPrice := ⟨unitPrice⟩,
    subtotal := ⟨wrap64 (unitPrice * quantity)⟩ }

/-- `order.NewOrderLog` (argument order as in the source: new status before
old status). -/
def NewOrderLog (orderID : Nat) (operatorID : Int) (action newStatus oldStatus : String) :
    OrderLog :=
  { orderID := orderID, operatorID := operatorID, action := action,
    oldStatus := oldStatus, newStatus := newStatus }

/-- `order.CreateOrderItemRequest`. -/
structure CreateOrderItemRequest where
  flowerSKU : String
  quantity : Int
  deriving Repr, DecidableEq

/-- `order.CreateOrderRequest`. -/
structure CreateOrderRequest where
  addressID : Int
  items : List CreateOrderItemRequest
  deriving Repr, DecidableEq

/-- `orderService.validateCreateRequest`. -/
def validateCreateRequest (req : CreateOrderRequest) : Option String :=
  if req.addressID ≤ 0 then some "地址ID不能为空"
  else if req.items.length = 0 then some "订单项不能为空"
  else none

/-- Loop body of `orderService.validateAndPrepareItems`, threading the
accumulated line items and running total (`totalAmount += subtotal` in
int64). -/
def validateAndPrepareItemsAux (db : Db) (acc : List OrderItem) (total : Int) :
    List CreateOrderItemRequest → Except String (List OrderItem × Int)
  | [] => .ok (acc, total)
  | item :: rest =>
    if item.quantity ≤ 0 then .error "数量必须大于0"
    else
      match getBySKU db item.flowerSKU with
      | .error e => .error ("获取鲜花信息失败: " ++ e)
      | .ok flw =>
        if !flw.isActive then .error ("鲜花 " ++ flw.name ++ " 已下架")
        else if flw.stock < item.quantity then
          .error ("库存不足: " ++ flw.name ++ " (库存: " ++ toString flw.stock ++
            ", 需要: " ++ toString item.quantity ++ ")")
        else
          let oi := NewOrderItem 0 item.flowerSKU flw.name item.quantity flw.salePrice.value
          validateAndPrepareItemsAux db (acc ++ [oi]) (wrap64 (total + oi.subtotal.value)) rest

/-- `orderService.validateAndPrepareItems`: validates every requested line
against the current catalog and builds the priced line items plus the order
total. -/
def validateAndPrepareItems (db : Db) (items : List CreateOrderItemRequest) :
    Except String (List OrderItem × Int) :=
  validateAndPrepareItemsAux db [] 0 items

/-- `orderService.rollbackStock`: re-adds the quantity of each item, but
stops at the first item whose SKU equals the failed item's SKU; rollback
failures are only logged as warnings. -/
def rollbackStock (env : Env) (s : St) (failed : Option OrderItem) :
    List OrderItem → St
  | [] => s
  | item :: rest =>
    match failed with
    | some f =>
      if item.flowerSKU == f.flowerSKU then s
      else rollbackStock env (updateStock env s item.flowerSKU item.quantity).2 failed rest
    | none => rollbackStock env (updateStock env s item.flowerSKU item.quantity).2 failed rest

/-- Phase 1 of `orderService.executeCreateOrderTransaction`: decrement the
stock of every line; on the first failure roll back the already-decremented
lines and return the wrapped error. -/
def deductStockLoop (env : Env) (all : List OrderItem) (s : St) :
    List OrderItem → Except String Unit × St
  | [] => (.ok (), s)
  | item :: rest =>
    match updateStock env s item.flowerSKU (-item.quantity) with
    | (.ok _, s1) => deductStockLoop env all s1 rest
    | (.error e, s1) =>
      (.error ("扣减库存失败: " ++ e), rollbackStock env s1 (some item) all)

/-- `orderService.executeCreateOrderTransaction`: decrement all stocks, then
persist the order; if the order write fails, roll back every decrement. -/
def executeCreateOrderTransaction (env : Env) (s : St) (ord : Order)
    (items : List OrderItem) : Except String Nat × St :=
  match deductStockLoop env items s items with
  | (.error e, s1) => (.error e, s1)
  | (.ok _, s1) =>
    match orderCreate env s1 ord items with
    | (.error e, s2) => (.error ("创建订单失败: " ++ e), rollbackStock env s2 none items)
    | (.ok oid, s2) => (.ok oid, s2)

/-- `orderService.CreateOrder`: validate, price the lines from the catalog,
run the stock-decrement/persist sequence, then best-effort append the
`create_order` audit entry (its failure is only a warning). -/
def createOrder (env : Env) (db : Db) (orderNo : String) (userID : Int)
    (req : CreateOrderRequest) : Except String String × Db :=
  match validateCreateRequest req with
  | some e => (.error e, db)
  | none =>
    match validateAndPrepareItems db req.items with
    | .error e => (.error e, db)
    | .ok (items, totalAmount) =>
      let ord : Order := { NewOrder userID req.addressID orderNo with totalAmount := ⟨totalAmount⟩ }
      match executeCreateOrderTransaction env (St.init db) ord items with
      | (.error e, s1) => (.error e, s1.db)
      | (.ok oid, s1) =>
        let log := NewOrderLog oid userID "create_order" StatusPending ""
        (.ok orderNo, (createLog env s1 log).2.db)

/-- `orderService.GetOrder`: look the order up by number and reject any
requester that is not the owning user. -/
def getOrder (db : Db) (userID : Int) (orderNo : String) :
    Except String (Order × List OrderItem) :=
  match getByOrderNo db orderNo with
  | .error e => .error e
  | .ok (ord, items) =>
    if ord.userID ≠ userID then .error "无权访问该订单"
    else .ok (ord, items)

/-- `orderService.CompleteOrder`: pending orders only; sets the status to
completed and best-effort appends the `complete_order` audit entry.  Stock
is never touched. -/
def completeOrder (env : Env) (db : Db) (orderID : Nat) (operatorID : Int) :
    Except String Unit × Db :=
  match getByID db orderID with
  | .error e => (.error ("订单不存在: " ++ e), db)
  | .ok (ord, _) =>
    if ord.status ≠ StatusPending then
      (.error ("订单状态不正确，当前状态: " ++ ord.status ++ ", 只有待处理订单可以完成"), db)
    else
      match updateStatus env (St.init db) orderID StatusCompleted with
      | (.error e, s1) => (.error ("更新订单状态失败: " ++ e), s1.db)
      | (.ok _, s1) =>
        let log := NewOrderLog orderID operatorID "complete_order" StatusCompleted ord.status
        (.ok (), (createLog env s1 log).2.db)

/-- Restoration loop of `orderService.CancelOrder`: re-add every line's
quantity; a failed restoration is only logged as a warning and the loop
continues. -/
def restoreStockLoop (env : Env) (s : St) : List OrderItem → St
  | [] => s
  | item :: rest => restoreStockLoop env (updateStock env s item.flowerSKU item.quantity).2 rest

/-- `orderService.CancelOrder`: pending orders only; best-effort restores
every line's stock, sets the status to cancelled, best-effort appends the
`cancel_order` audit entry. -/
def cancelOrder (env : Env) (db : Db) (orderID : Nat) (operatorID : Int) :
    Except String Unit × Db :=
  match getByID db orderID with
  | .error e => (.error ("订单不存在: " ++ e), db)
  | .ok (ord, items) =>
    if ord.status ≠ StatusPending then
      (.error ("订单状态不正确，当前状态: " ++ ord.status ++ ", 只有待处理订单可以取消"), db)
    else
      let s1 := restoreStockLoop env (St.init db) items
      match updateStatus env s1 orderID StatusCancelled with
      | (.error e, s2) => (.error ("更新订单状态失败: " ++ e), s2.db)
      | (.ok _, s2) =>
        let log := NewOrderLog orderID operatorID "cancel_order" StatusCancelled ord.status
        (.ok (), (createLog env s2 log).2.db)

/-- Whether `pat` occurs at the start of `s` (character lists). -/
def isPrefixL : List Char → List Char → Bool
  | [], _ => true
  | _ :: _, [] => false
  | a :: as, b :: bs => a == b && isPrefixL as bs

/-- Whether `pat` occurs somewhere inside `s` (character lists). -/
def isInfixL (pat : List Char) : List Char → Bool
  | [] => isPrefixL pat []
  | c :: rest => isPrefixL pat (c :: rest) || isInfixL pat rest

/-- `strings.Contains` on UTF-8 strings. -/
def containsSub (s pat : String) : Bool := isInfixL pat.data s.data

/-- The error-classification branch of `Handler.HandleGetOrder`: the HTTP
status code is chosen by matching substrings of the error message. -/
def getOrderErrStatusCode (e : String) : Nat :=
  if containsSub e "not found" then 404
  else if containsSub e "无权" then 403
  else 400

/-- The stock counter stored for `sku` in a list of catalog rows (`none`
when no such row exists). -/
def stockOfL (fl : List Flower) (sku : String) : Option Int :=
  (fl.find? (fun f => f.sku == sku)).map (fun f => f.stock)

/-- The stock counter currently stored for `sku` (`none` when no such
catalog row exists). -/
def stockOf (db : Db) (sku : String) : Option Int :=
  stockOfL db.flowers sku

/-- All stock counters of a store are 64-bit values (true of anything read
back from an `INT` column; every write goes through `wrap64`). -/
def wrappedStocks (fl : List Flower) : Prop :=
  ∀ f ∈ fl, wrap64 f.stock = f.stock

/-- Sequential application of a list of `(sku, delta)` stock adjustments. -/
def applyAdjs (fl : List Flower) (l : List (String × Int)) : List Flower :=
  l.foldl (fun fl p => applyAdj fl p.1 p.2) fl

/-- The adjustments performed by the decrement loop of order creation. -/
def decAdjs (items : List OrderItem) : List (String × Int) :=
  items.map (fun it => (it.flowerSKU, -it.quantity))

/-- The adjustments performed by the restoration loop of cancellation. -/
def incAdjs (items : List OrderItem) : List (String × Int) :=
  items.map (fun it => (it.flowerSKU, it.quantity))

/-- Net delta a list of adjustments applies to one SKU. -/
def sumAdj (l : List (String × Int)) (sku : String) : Int :=
  ((l.filter (fun p => p.1 == sku)).map (fun p => p.2)).sum

/-- Sum of the persisted line-item subtotals of an order. -/
def sumSubtotals (items : List OrderItem) : Int :=
  (items.map (fun it => it.subtotal.value)).sum

/-- Components of the execution state that stock-adjustment statements never
touch: the order and audit tables, the users table, the id counter and the
other call counters. -/
def StockFrame (s s' : St) : Prop :=
  s'.db.orders = s.db.orders ∧ s'.db.logs = s.db.logs ∧
  s'.db.nextId = s.db.nextId ∧ s'.db.users = s.db.users ∧
  s'.oc = s.oc ∧ s'.st = s.st ∧ s'.lg = s.lg

/-! Concrete stores and requests used as witnesses and counterexamples. -/

/-- A store with one active catalog item `FLW001` (price 10.00, stock 10). -/
def dbTen : Db := ⟨[⟨"FLW001", "红玫瑰", ⟨1000⟩, 10, true⟩], [], [], [], 1⟩

/-- A request with two lines for the same SKU (duplicate SKUs are processed
as independent lines). -/
def reqDup : CreateOrderRequest := ⟨1, [⟨"FLW001", 1⟩, ⟨"FLW001", 2⟩]⟩

/-- An environment in which the second stock-adjustment statement of the
run fails at the database layer. -/
def envUs1 : Env := { Env.clean with usFail := fun n => if n = 1 then some "disk I/O error" else none }

/-- A store whose single item has a unit price of `2 ^ 62` cents, within
the signed 64-bit range. -/
def dbHuge : Db := ⟨[⟨"FLW001", "天价花", ⟨4611686018427387904⟩, 4, true⟩], [], [], [], 1⟩

/-- A request for four units of the `2 ^ 62`-priced item: the subtotal
computation `4611686018427387904 * 4` overflows int64 to `0`. -/
def reqHuge : CreateOrderRequest := ⟨1, [⟨"FLW001", 4⟩]⟩

/-- One line requesting ten units of `FLW001`. -/
def reqTen : CreateOrderRequest := ⟨1, [⟨"FLW001", 10⟩]⟩

/-- A store with one active item with stock 5. -/
def dbFive : Db := ⟨[⟨"FLW001", "红玫瑰", ⟨1000⟩, 5, true⟩], [], [], [], 1⟩

/-- A store holding an order owned by user 1, plus a second registered user
with the staff role `"clerk"`. -/
def dbStaff : Db :=
  ⟨[⟨"FLW001", "红玫瑰", ⟨1000⟩, 90, true⟩],
   [⟨1, "alice", "customer"⟩, ⟨2, "bob", "clerk"⟩],
   [⟨⟨1, "ORD20260101000001", 1, 1, ⟨10000⟩, StatusPending⟩,
     [⟨1, "FLW001", "红玫瑰", 10, ⟨1000⟩, ⟨10000⟩⟩]⟩],
   [], 2⟩

/-- A store holding a pending order (id 1) with one line of ten units, and
a completed order (id 2). -/
def dbPend : Db :=
  ⟨[⟨"FLW001", "红玫瑰", ⟨1000⟩, 90, true⟩],
   [⟨1, "alice", "customer"⟩],
   [⟨⟨1, "ORD20260101000001", 1, 1, ⟨10000⟩, StatusPending⟩,
     [⟨1, "FLW001", "红玫瑰", 10, ⟨1000⟩, ⟨10000⟩⟩]⟩,
    ⟨⟨2, "ORD20260101000002", 1, 1, ⟨1000⟩, StatusCompleted⟩,
     [⟨2, "FLW001", "红玫瑰", 1, ⟨1000⟩, ⟨1000⟩⟩]⟩],
   [], 3⟩

/-- An environment in which the first status-update statement fails at the
database layer. -/
def envSt0 : Env := { Env.clean with stFail := fun n => if n = 0 then some "connection reset" else none }

/-! ## Arithmetic lemmas for 64-bit wraparound -/

theorem wrap64_idem (x : Int) : wrap64 (wrap64 x) = wrap64 x := by
  unfold wrap64; omega

theorem wrap64_eq_self {x : Int} (h1 : -9223372036854775808 ≤ x)
    (h2 : x < 9223372036854775808) : wrap64 x = x := by
  unfold wrap64; omega

theorem wrap64_add_left (a b : Int) : wrap64 (wrap64 a + b) = wrap64 (a + b) := by
  unfold wrap64; omega

/-! ## Stock-adjustment algebra -/

theorem applyAdj_head_sku (f : Flower) (sku : String) (d : Int) :
    (if f.sku == sku then { f with stock := wrap64 (f.stock + d) } else f).sku = f.sku := by
  split <;> rfl

theorem applyAdj_of_missing {fl : List Flower} {sku : String} (d : Int)
    (h : fl.any (fun f => f.sku == sku) = false) : applyAdj fl sku d = fl := by
  induction fl with
  | nil => rfl
  | cons f rest ih =>
    simp only [List.any_cons, Bool.or_eq_false_iff] at h
    simp only [applyAdj, List.map_cons, h.1, Bool.false_eq_true, if_false]
    exact congrArg (f :: ·) (ih h.2)

theorem any_applyAdj (fl : List Flower) (sku x : String) (d : Int) :
    (applyAdj fl sku d).any (fun f => f.sku == x) = fl.any (fun f => f.sku == x) := by
  induction fl with
  | nil => rfl
  | cons f rest ih =>
    simp only [applyAdj, List.map_cons, List.any_cons] at *
    rw [applyAdj_head_sku, ih]

theorem find?_applyAdj (fl : List Flower) (sku s : String) (d : Int) :
    (applyAdj fl sku d).find? (fun f => f.sku == s) =
      (fl.find? (fun f => f.sku == s)).map
        (fun f => if f.sku == sku then { f with stock := wrap64 (f.stock + d) } else f) := by
  induction fl with
  | nil => rfl
  | cons f rest ih =>
    have hg : (if f.sku == sku then { f with stock := wrap64 (f.stock + d) } else f).sku = f.sku :=
      applyAdj_head_sku f sku d
    by_cases hs : f.sku = s
    · have h2 : (f.sku == s) = true := beq_iff_eq.mpr hs
      have h1 : ((if f.sku == sku then { f with stock := wrap64 (f.stock + d) } else f).sku == s)
          = true := by rw [hg]; exact h2
      simp only [applyAdj, List.map_cons, List.find?_cons, h1, h2, Option.map_some']
    · have h2 : (f.sku == s) = false := by simp [hs]
      have h1 : ((if f.sku == sku then { f with stock := wrap64 (f.stock + d) } else f).sku == s)
          = false := by rw [hg]; exact h2
      simp only [applyAdj, List.map_cons, List.find?_cons, h1, h2]
      simpa only [applyAdj] using ih

theorem stockOfL_applyAdj (fl : List Flower) (sku s : String) (d : Int) :
    stockOfL (applyAdj fl sku d) s =
      (stockOfL fl s).map (fun v => if s = sku then wrap64 (v + d) else v) := by
  simp only [stockOfL, find?_applyAdj, Option.map_map]
  cases hf : fl.find? (fun f => f.sku == s) with
  | none => rfl
  | some f =>
    have hfs : f.sku = s := by
      have := List.find?_some hf
      simpa using this
    simp only [Option.map_some', Function.comp_apply]
    by_cases hk : s = sku
    · have hb : (f.sku == sku) = true := by rw [hfs]; exact beq_iff_eq.mpr hk
      simp [hb, hk]
    · have hb : (f.sku == sku) = false := by rw [hfs]; simp [hk]
      simp [hb, hk]

theorem wrappedStocks_applyAdj {fl : List Flower} (h : wrappedStocks fl)
    (sku : String) (d : Int) : wrappedStocks (applyAdj fl sku d) := by
  intro f hf
  simp only [applyAdj, List.mem_map] at hf
  obtain ⟨g, hg, hfg⟩ := hf
  by_cases hc : g.sku = sku
  · simp [hc] at hfg
    subst hfg
    exact wrap64_idem _
  · have hb : (g.sku == sku) = false := by simp [hc]
    rw [hb] at hfg
    simp only [Bool.false_eq_true, if_false] at hfg
    subst hfg
    exact h g hg

theorem sumAdj_cons (p : String × Int) (l : List (String × Int)) (s : String) :
    sumAdj (p :: l) s = (if p.1 = s then p.2 else 0) + sumAdj l s := by
  by_cases h : p.1 = s <;> simp [sumAdj, List.filter_cons, h]

theorem sumAdj_append (a b : List (String × Int)) (s : String) :
    sumAdj (a ++ b) s = sumAdj a s + sumAdj b s := by
  simp [sumAdj, List.filter_append]

theorem sumAdj_dec_inc (items : List OrderItem) (s : String) :
    sumAdj (decAdjs items) s + sumAdj (incAdjs items) s = 0 := by
  induction items with
  | nil => rfl
  | cons it rest ih =>
    simp only [decAdjs, incAdjs, List.map_cons] at *
    rw [sumAdj_cons, sumAdj_cons]
    by_cases h : it.flowerSKU = s <;> simp only [h, if_true, if_false] <;> omega

theorem applyAdjs_append (fl : List Flower) (a b : List (String × Int)) :
    applyAdjs fl (a ++ b) = applyAdjs (applyAdjs fl a) b := by
  simp [applyAdjs, List.foldl_append]

theorem stockOfL_mem {fl : List Flower} {s : String} {v : Int}
    (h : stockOfL fl s = some v) : ∃ f ∈ fl, f.stock = v := by
  simp only [stockOfL, Option.map_eq_some'] at h
  obtain ⟨f, hf, hv⟩ := h
  exact ⟨f, List.mem_of_find?_eq_some hf, hv⟩

theorem stockOfL_applyAdjs {fl : List Flower} (l : List (String × Int)) (s : String)
    (h : wrappedStocks fl) :
    stockOfL (applyAdjs fl l) s = (stockOfL fl s).map (fun v => wrap64 (v + sumAdj l s)) := by
  induction l generalizing fl with
  | nil =>
    cases hv : stockOfL fl s with
    | none => simp [applyAdjs, hv]
    | some v =>
      obtain ⟨f, hf, hfv⟩ := stockOfL_mem hv
      have : wrap64 v = v := hfv ▸ h f hf
      simp [applyAdjs, hv, sumAdj, this]
  | cons p l ih =>
    have hstep : applyAdjs fl (p :: l) = applyAdjs (applyAdj fl p.1 p.2) l := rfl
    rw [hstep, ih (wrappedStocks_applyAdj h p.1 p.2), stockOfL_applyAdj, sumAdj_cons]
    cases hv : stockOfL fl s with
    | none => rfl
    | some v =>
      by_cases hc : s = p.1
      · simp [hv, hc, wrap64_add_left, Int.add_assoc]
      · have : ¬ p.1 = s := fun hh => hc hh.symm
        simp [hv, hc, this]

/-! ## Repository-operation lemmas -/

theorem updateStock_frame (env : Env) (s : St) (sku : String) (d : Int) :
    (updateStock env s sku d).2.db.orders = s.db.orders ∧
    (updateStock env s sku d).2.db.logs = s.db.logs ∧
    (updateStock env s sku d).2.db.nextId = s.db.nextId ∧
    (updateStock env s sku d).2.db.users = s.db.users ∧
    (updateStock env s sku d).2.us = s.us + 1 ∧
    (updateStock env s sku d).2.oc = s.oc ∧
    (updateStock env s sku d).2.st = s.st ∧
    (updateStock env s sku d).2.lg = s.lg := by
  unfold updateStock
  cases h : env.usFail s.us with
  | some m => simp [h]
  | none =>
    simp only [h]
    split <;> simp

theorem updateStock_db (env : Env) (s : St) (sku : String) (d : Int)
    (h : env.usFail s.us = none) :
    (updateStock env s sku d).2.db.flowers = applyAdj s.db.flowers sku d := by
  simp only [updateStock, h]
  split
  · rfl
  · rename_i hany
    simp only [Bool.not_eq_true] at hany
    exact (applyAdj_of_missing d hany).symm

theorem updateStock_ok {env : Env} {s : St} {sku : String} {d : Int} {u : Unit} {s' : St}
    (h : updateStock env s sku d = (.ok u, s')) :
    env.usFail s.us = none ∧
    s' = { s with
      us := s.us + 1,
      db := { s.db with flowers := applyAdj s.db.flowers sku d } } := by
  simp only [updateStock] at h
  cases henv : env.usFail s.us with
  | some m =>
    rw [henv] at h
    exact absurd (congrArg Prod.fst h) (by simp)
  | none =>
    rw [henv] at h
    by_cases hany : s.db.flowers.any (fun f => f.sku == sku) = true
    · rw [if_pos hany] at h
      simp only [Prod.mk.injEq] at h
      exact ⟨rfl, h.2.symm⟩
    · rw [if_neg hany] at h
      exact absurd (congrArg Prod.fst h) (by simp)

theorem orderCreate_ok {env : Env} {s : St} {ord : Order} {items : List OrderItem}
    {oid : Nat} {s' : St} (h : orderCreate env s ord items = (.ok oid, s')) :
    env.ocFail s.oc = none ∧ oid = s.db.nextId ∧
    s' = { s with
      oc := s.oc + 1,
      db := { s.db with
        orders := s.db.orders ++ [⟨{ ord with id := s.db.nextId },
          items.map (fun it => { it with orderID := s.db.nextId })⟩],
        nextId := s.db.nextId + 1 } } := by
  simp only [orderCreate] at h
  cases henv : env.ocFail s.oc with
  | some m =>
    rw [henv] at h
    exact absurd (congrArg Prod.fst h) (by simp)
  | none =>
    rw [henv] at h
    simp only [Prod.mk.injEq, Except.ok.injEq] at h
    exact ⟨rfl, h.1.symm, h.2.symm⟩

theorem createLog_db (env : Env) (s : St) (log : OrderLog) :
    (createLog env s log).2.db =
      { s.db with logs := s.db.logs ++
          (match env.lgFail s.lg with | none => [log] | some _ => []) } := by
  unfold createLog
  cases h : env.lgFail s.lg <;> simp [h]

theorem updateStatus_frame (env : Env) (s : St) (oid : Nat) (status : String) :
    (updateStatus env s oid status).2.db.flowers = s.db.flowers ∧
    (updateStatus env s oid status).2.db.logs = s.db.logs ∧
    (updateStatus env s oid status).2.db.nextId = s.db.nextId ∧
    (updateStatus env s oid status).2.db.users = s.db.users ∧
    (updateStatus env s oid status).2.us = s.us ∧
    (updateStatus env s oid status).2.oc = s.oc ∧
    (updateStatus env s oid status).2.lg = s.lg := by
  unfold updateStatus
  cases h : env.stFail s.st with
  | some m => simp [h]
  | none =>
    simp only [h]
    split <;> simp

theorem updateStatus_ok {env : Env} {s : St} {oid : Nat} {status : String} {u : Unit} {s' : St}
    (h : updateStatus env s oid status = (.ok u, s')) :
    env.stFail s.st = none ∧
    s' = { s with
      st := s.st + 1,
      db := { s.db with orders := s.db.orders.map (fun so =>
        if so.ord.id == oid then { so with ord := { so.ord with status := status } }
        else so) } } := by
  simp only [updateStatus] at h
  cases henv : env.stFail s.st with
  | some m =>
    rw [henv] at h
    exact absurd (congrArg Prod.fst h) (by simp)
  | none =>
    rw [henv] at h
    by_cases hany : s.db.orders.any (fun so => so.ord.id == oid) = true
    · rw [if_pos hany] at h
      simp only [Prod.mk.injEq] at h
      exact ⟨rfl, h.2.symm⟩
    · rw [if_neg hany] at h
      exact absurd (congrArg Prod.fst h) (by simp)

theorem updateStatus_of_mem {env : Env} {s : St} {oid : Nat} (status : String)
    (h1 : env.stFail s.st = none)
    (h2 : s.db.orders.any (fun so => so.ord.id == oid) = true) :
    updateStatus env s oid status = (.ok (),
      { s with
        st := s.st + 1,
        db := { s.db with orders := s.db.orders.map (fun so =>
          if so.ord.id == oid then { so with ord := { so.ord with status := status } }
          else so) } }) := by
  simp only [updateStatus, h1, h2, if_true]

theorem getByID_ok {db : Db} {oid : Nat} {o : Order} {its : List OrderItem}
    (h : getByID db oid = .ok (o, its)) :
    (⟨o, its⟩ : StoredOrder) ∈ db.orders ∧ o.id = oid := by
  unfold getByID at h
  cases hf : db.orders.find? (fun so => so.ord.id == oid) with
  | none => rw [hf] at h; exact absurd h (by simp)
  | some so =>
    rw [hf] at h
    simp only [Except.ok.injEq, Prod.mk.injEq] at h
    have hmem := List.mem_of_find?_eq_some hf
    have hid := List.find?_some hf
    have hso : so = ⟨o, its⟩ := by
      cases so
      simp only [StoredOrder.mk.injEq]
      exact h
    rw [hso] at hmem hid
    exact ⟨hmem, by simpa using hid⟩

/-! ## Loop lemmas -/

theorem stockFrame_rfl (s : St) : StockFrame s s :=
  ⟨rfl, rfl, rfl, rfl, rfl, rfl, rfl⟩

theorem stockFrame_trans {a b c : St} (h1 : StockFrame a b) (h2 : StockFrame b c) :
    StockFrame a c :=
  ⟨h2.1.trans h1.1, h2.2.1.trans h1.2.1, h2.2.2.1.trans h1.2.2.1,
   h2.2.2.2.1.trans h1.2.2.2.1, h2.2.2.2.2.1.trans h1.2.2.2.2.1,
   h2.2.2.2.2.2.1.trans h1.2.2.2.2.2.1, h2.2.2.2.2.2.2.trans h1.2.2.2.2.2.2⟩

theorem updateStock_stockFrame (env : Env) (s : St) (sku : String) (d : Int) :
    StockFrame s (updateStock env s sku d).2 := by
  obtain ⟨h1, h2, h3, h4, h5, h6, h7, h8⟩ := updateStock_frame env s sku d
  exact ⟨h1, h2, h3, h4, h6, h7, h8⟩

theorem rollbackStock_stockFrame (env : Env) (failed : Option OrderItem)
    (items : List OrderItem) (s : St) :
    StockFrame s (rollbackStock env s failed items) := by
  induction items generalizing s with
  | nil =>
    cases failed <;> exact stockFrame_rfl s
  | cons item rest ih =>
    cases failed with
    | some f =>
      by_cases hc : (item.flowerSKU == f.flowerSKU) = true
      · simp only [rollbackStock, hc, if_true]
        exact stockFrame_rfl s
      · rw [rollbackStock, if_neg hc]
        exact stockFrame_trans (updateStock_stockFrame env s item.flowerSKU item.quantity)
          (ih _)
    | none =>
      rw [rollbackStock]
      exact stockFrame_trans (updateStock_stockFrame env s item.flowerSKU item.quantity)
        (ih _)

theorem restoreStockLoop_stockFrame (env : Env) (items : List OrderItem) (s : St) :
    StockFrame s (restoreStockLoop env s items) := by
  induction items generalizing s with
  | nil => exact stockFrame_rfl s
  | cons item rest ih =>
    rw [restoreStockLoop]
    exact stockFrame_trans (updateStock_stockFrame env s item.flowerSKU item.quantity) (ih _)

theorem restoreStockLoop_flowers (env : Env) (items : List OrderItem) (s : St)
    (hus : ∀ n, env.usFail n = none) :
    (restoreStockLoop env s items).db.flowers = applyAdjs s.db.flowers (incAdjs items) := by
  induction items generalizing s with
  | nil => rfl
  | cons item rest ih =>
    rw [restoreStockLoop]
    rw [ih ((updateStock env s item.flowerSKU item.quantity).2)]
    rw [updateStock_db env s item.flowerSKU item.quantity (hus s.us)]
    rfl

theorem deductStockLoop_stockFrame (env : Env) (all rem : List OrderItem) (s : St) :
    StockFrame s (deductStockLoop env all s rem).2 := by
  induction rem generalizing s with
  | nil => exact stockFrame_rfl s
  | cons item rest ih =>
    rw [deductStockLoop]
    cases hup : updateStock env s item.flowerSKU (-item.quantity) with
    | mk r s1 =>
      have hfr : StockFrame s s1 := by
        have := updateStock_stockFrame env s item.flowerSKU (-item.quantity)
        rwa [hup] at this
      cases r with
      | ok v => exact stockFrame_trans hfr (ih s1)
      | error e => exact stockFrame_trans hfr (rollbackStock_stockFrame env (some item) all s1)

theorem deductStockLoop_ok_flowers {env : Env} {all rem : List OrderItem} {s : St}
    {u : Unit} {s' : St} (h : deductStockLoop env all s rem = (.ok u, s')) :
    s'.db.flowers = applyAdjs s.db.flowers (decAdjs rem) := by
  induction rem generalizing s with
  | nil =>
    simp only [deductStockLoop, Prod.mk.injEq] at h
    rw [← h.2]
    rfl
  | cons item rest ih =>
    rw [deductStockLoop] at h
    cases hup : updateStock env s item.flowerSKU (-item.quantity) with
    | mk r s1 =>
      rw [hup] at h
      cases r with
      | error e => exact absurd (congrArg Prod.fst h) (by simp)
      | ok v =>
        have h' : deductStockLoop env all s1 rest = (.ok u, s') := h
        obtain ⟨-, hs1⟩ := updateStock_ok hup
        rw [ih h', hs1]
        rfl

/-! ## Validation and creation lemmas -/

theorem getBySKU_ok {db : Db} {sku : String} {f : Flower} (h : getBySKU db sku = .ok f) :
    db.flowers.find? (fun g => g.sku == sku) = some f := by
  unfold getBySKU at h
  cases hf : db.flowers.find? (fun g => g.sku == sku) with
  | none => rw [hf] at h; exact absurd h (by simp)
  | some g =>
    rw [hf] at h
    simp only [Except.ok.injEq] at h
    rw [h]

theorem vapAux_ok {db : Db} {reqs : List CreateOrderItemRequest} {acc : List OrderItem}
    {tot : Int} {l : List OrderItem} {t : Int}
    (h : validateAndPrepareItemsAux db acc tot reqs = .ok (l, t)) :
    ∃ nl, l = acc ++ nl ∧
      t = nl.foldl (fun a oi => wrap64 (a + oi.subtotal.value)) tot ∧
      nl.length = reqs.length ∧
      ∀ oi ∈ nl, ∃ rq f, rq ∈ reqs ∧
        db.flowers.find? (fun g => g.sku == rq.flowerSKU) = some f ∧
        f.isActive = true ∧ 0 < rq.quantity ∧ rq.quantity ≤ f.stock ∧
        oi = NewOrderItem 0 rq.flowerSKU f.name rq.quantity f.salePrice.value := by
  induction reqs generalizing acc tot with
  | nil =>
    simp only [validateAndPrepareItemsAux, Except.ok.injEq, Prod.mk.injEq] at h
    refine ⟨[], by simp [← h.1], by simp [← h.2], rfl, by simp⟩
  | cons rq rest ih =>
    rw [validateAndPrepareItemsAux] at h
    split at h
    · exact absurd h (by simp)
    · rename_i hq
      split at h
      · exact absurd h (by simp)
      · rename_i f hg
        split at h
        · exact absurd h (by simp)
        · rename_i hact
          split at h
          · exact absurd h (by simp)
          · rename_i hstock
            have hact' : f.isActive = true := by
              revert hact; cases f.isActive <;> simp
            obtain ⟨nl, hl, ht, hlen, hP⟩ := ih h
            refine ⟨NewOrderItem 0 rq.flowerSKU f.name rq.quantity f.salePrice.value :: nl,
              by rw [hl, List.append_assoc]; rfl, by rw [ht]; rfl,
              by simp [hlen], ?_⟩
            intro oi hoi
            cases hoi with
            | head =>
              exact ⟨rq, f, List.mem_cons_self rq rest, getBySKU_ok hg, hact',
                by omega, by omega, rfl⟩
            | tail _ htail =>
              obtain ⟨rq2, f2, hm, hrest⟩ := hP oi htail
              exact ⟨rq2, f2, List.mem_cons_of_mem rq hm, hrest⟩

theorem exec_ok {env : Env} {s : St} {ord : Order} {items : List OrderItem}
    {oid : Nat} {s' : St}
    (h : executeCreateOrderTransaction env s ord items = (.ok oid, s')) :
    oid = s.db.nextId ∧
    s'.db.flowers = applyAdjs s.db.flowers (decAdjs items) ∧
    s'.db.orders = s.db.orders ++ [⟨{ ord with id := s.db.nextId },
      items.map (fun it => { it with orderID := s.db.nextId })⟩] ∧
    s'.db.logs = s.db.logs ∧ s'.db.users = s.db.users ∧
    s'.db.nextId = s.db.nextId + 1 ∧ s'.lg = s.lg ∧ s'.st = s.st := by
  rw [executeCreateOrderTransaction] at h
  cases hd : deductStockLoop env items s items with
  | mk r s1 =>
    rw [hd] at h
    cases r with
    | error e => exact absurd (congrArg Prod.fst h) (by simp)
    | ok v =>
      have hfl1 : s1.db.flowers = applyAdjs s.db.flowers (decAdjs items) :=
        deductStockLoop_ok_flowers hd
      have hfr1 : StockFrame s s1 := by
        have := deductStockLoop_stockFrame env items items s
        rwa [hd] at this
      simp only [] at h
      cases hoc : orderCreate env s1 ord items with
      | mk r2 s2 =>
        rw [hoc] at h
        cases r2 with
        | error e => exact absurd (congrArg Prod.fst h) (by simp)
        | ok i =>
          have h' : ((Except.ok i : Except String Nat), s2) = (.ok oid, s') := h
          have hi : i = oid := by
            have := congrArg Prod.fst h'
            simpa using this
          have hs2 : s2 = s' := congrArg Prod.snd h'
          obtain ⟨-, hoid, hrec⟩ := orderCreate_ok hoc
          obtain ⟨fo, flg, fn, fu, foc, fst, flgc⟩ := hfr1
          subst hs2
          constructor
          · rw [← hi, hoid, fn]
          refine ⟨?_, ?_, ?_, ?_, ?_, ?_, ?_⟩
          · rw [hrec]; exact hfl1
          · rw [hrec]
            simp only [fo, fn]
          · rw [hrec]; exact flg
          · rw [hrec]; exact fu
          · rw [hrec]; simp only [fn]
          · rw [hrec]; exact flgc
          · rw [hrec]; exact fst

theorem createOrder_ok {env : Env} {db : Db} {no : String} {uid : Int}
    {req : CreateOrderRequest} {r : String} {db' : Db}
    (h : createOrder env db no uid req = (.ok r, db')) :
    r = no ∧
    ∃ items total, validateAndPrepareItems db req.items = .ok (items, total) ∧
      db'.flowers = applyAdjs db.flowers (decAdjs items) ∧
      db'.orders = db.orders ++ [⟨⟨db.nextId, no, uid, req.addressID, ⟨total⟩, StatusPending⟩,
        items.map (fun it => { it with orderID := db.nextId })⟩] ∧
      db'.users = db.users ∧ db'.nextId = db.nextId + 1 ∧
      db'.logs = db.logs ++ (match env.lgFail 0 with
        | none => [NewOrderLog db.nextId uid "create_order" StatusPending ""]
        | some _ => []) := by
  rw [createOrder] at h
  cases hv : validateCreateRequest req with
  | some e => rw [hv] at h; exact absurd (congrArg Prod.fst h) (by simp)
  | none =>
    rw [hv] at h
    simp only [] at h
    cases hvap : validateAndPrepareItems db req.items with
    | error e => rw [hvap] at h; exact absurd (congrArg Prod.fst h) (by simp)
    | ok p =>
      rw [hvap] at h
      cases p with
      | mk items total =>
        simp only [] at h
        cases hex : executeCreateOrderTransaction env (St.init db)
            { NewOrder uid req.addressID no with totalAmount := ⟨total⟩ } items with
        | mk rx s1 =>
          rw [hex] at h
          cases rx with
          | error e => exact absurd (congrArg Prod.fst h) (by simp)
          | ok oid =>
            simp only [] at h
            obtain ⟨hoid, hfl, hord, hlogs, husers, hnid, hlg, -⟩ := exec_ok hex
            have hr : r = no := by
              have := congrArg Prod.fst h
              simpa using this.symm
            have hdb : db' = (createLog env s1
                (NewOrderLog oid uid "create_order" StatusPending "")).2.db := by
              have := congrArg Prod.snd h
              simpa using this.symm
            rw [createLog_db] at hdb
            have hlg0 : s1.lg = 0 := hlg
            refine ⟨hr, items, total, rfl, ?_, ?_, ?_, ?_, ?_⟩
            · rw [hdb]; exact hfl
            · rw [hdb]
              simpa using hord
            · rw [hdb]; exact husers
            · rw [hdb]; exact hnid
            · rw [hdb]
              simp only [hlg0, hlogs, hoid]
              rfl

theorem getByOrderNo_ok {db : Db} {no : String} {o : Order} {its : List OrderItem}
    (h : getByOrderNo db no = .ok (o, its)) :
    (⟨o, its⟩ : StoredOrder) ∈ db.orders ∧ o.orderNo = no := by
  unfold getByOrderNo at h
  cases hf : db.orders.find? (fun so => so.ord.orderNo == no) with
  | none => rw [hf] at h; exact absurd h (by simp)
  | some so =>
    rw [hf] at h
    simp only [Except.ok.injEq, Prod.mk.injEq] at h
    have hmem := List.mem_of_find?_eq_some hf
    have hid := List.find?_some hf
    have hso : so = ⟨o, its⟩ := by
      cases so
      simp only [StoredOrder.mk.injEq]
      exact h
    rw [hso] at hmem hid
    exact ⟨hmem, by simpa using hid⟩

theorem find?_id_append_new {orders : List StoredOrder} {nid : Nat}
    (h : ∀ so ∈ orders, so.ord.id < nid) (nw : StoredOrder) (hnw : nw.ord.id = nid) :
    (orders ++ [nw]).find? (fun so => so.ord.id == nid) = some nw := by
  induction orders with
  | nil => simp [List.find?, hnw]
  | cons a rest ih =>
    have ha : (a.ord.id == nid) = false := by
      have := h a (List.mem_cons_self a rest)
      simp only [beq_eq_false_iff_ne, ne_eq]
      omega
    rw [List.cons_append, List.find?_cons, ha]
    exact ih (fun so hso => h so (List.mem_cons_of_mem a hso))

/-! ## The audit-log stream is never consulted by the other statements -/

theorem updateStock_lg (env : Env) (f : Nat → Option String) (s : St) (sku : String)
    (d : Int) : updateStock { env with lgFail := f } s sku d = updateStock env s sku d := rfl

theorem orderCreate_lg (env : Env) (f : Nat → Option String) (s : St) (ord : Order)
    (items : List OrderItem) :
    orderCreate { env with lgFail := f } s ord items = orderCreate env s ord items := rfl

theorem updateStatus_lg (env : Env) (f : Nat → Option String) (s : St) (oid : Nat)
    (status : String) :
    updateStatus { env with lgFail := f } s oid status = updateStatus env s oid status := rfl

theorem rollbackStock_lg (env : Env) (f : Nat → Option String) (failed : Option OrderItem)
    (items : List OrderItem) (s : St) :
    rollbackStock { env with lgFail := f } s failed items = rollbackStock env s failed items := by
  induction items generalizing s with
  | nil => cases failed <;> rfl
  | cons item rest ih =>
    cases failed with
    | some g =>
      by_cases hc : (item.flowerSKU == g.flowerSKU) = true
      · simp only [rollbackStock, hc, if_true]
      · rw [rollbackStock, rollbackStock, if_neg hc, if_neg hc, updateStock_lg]
        exact ih _
    | none =>
      rw [rollbackStock, rollbackStock, updateStock_lg]
      exact ih _

theorem restoreStockLoop_lg (env : Env) (f : Nat → Option String)
    (items : List OrderItem) (s : St) :
    restoreStockLoop { env with lgFail := f } s items = restoreStockLoop env s items := by
  induction items generalizing s with
  | nil => rfl
  | cons item rest ih =>
    rw [restoreStockLoop, restoreStockLoop, updateStock_lg]
    exact ih _

theorem deductStockLoop_lg (env : Env) (f : Nat → Option String)
    (all rem : List OrderItem) (s : St) :
    deductStockLoop { env with lgFail := f } all s rem = deductStockLoop env all s rem := by
  induction rem generalizing s with
  | nil => rfl
  | cons item rest ih =>
    rw [deductStockLoop, deductStockLoop, updateStock_lg]
    cases updateStock env s item.flowerSKU (-item.quantity) with
    | mk r s1 =>
      cases r with
      | ok v => exact ih _
      | error e =>
        simp only []
        rw [rollbackStock_lg]

theorem exec_lg (env : Env) (f : Nat → Option String) (s : St) (ord : Order)
    (items : List OrderItem) :
    executeCreateOrderTransaction { env with lgFail := f } s ord items =
      executeCreateOrderTransaction env s ord items := by
  rw [executeCreateOrderTransaction, executeCreateOrderTransaction, deductStockLoop_lg]
  cases deductStockLoop env items s items with
  | mk r s1 =>
    cases r with
    | error e => rfl
    | ok v =>
      simp only []
      rw [orderCreate_lg]
      cases orderCreate env s1 ord items with
      | mk r2 s2 =>
        cases r2 with
        | error e =>
          simp only []
          rw [rollbackStock_lg]
        | ok i => rfl

/-! ## Case lemmas for the three mutating operations -/

theorem updateStatus_err {env : Env} {s : St} {oid : Nat} {status : String}
    {e : String} {s' : St} (h : updateStatus env s oid status = (.error e, s')) :
    s'.db = s.db := by
  simp only [updateStatus] at h
  cases henv : env.stFail s.st with
  | some m =>
    rw [henv] at h
    simp only [Prod.mk.injEq] at h
    rw [← h.2]
  | none =>
    rw [henv] at h
    by_cases hany : s.db.orders.any (fun so => so.ord.id == oid) = true
    · rw [if_pos hany] at h
      exact absurd (congrArg Prod.fst h) (by simp)
    · rw [if_neg hany] at h
      simp only [Prod.mk.injEq] at h
      rw [← h.2]

theorem completeOrder_notfound {env : Env} {db : Db} {oid : Nat} {e : String} (op : Int)
    (h : getByID db oid = .error e) :
    completeOrder env db oid op = (.error ("订单不存在: " ++ e), db) := by
  rw [completeOrder, h]

theorem cancelOrder_notfound {env : Env} {db : Db} {oid : Nat} {e : String} (op : Int)
    (h : getByID db oid = .error e) :
    cancelOrder env db oid op = (.error ("订单不存在: " ++ e), db) := by
  rw [cancelOrder, h]

theorem completeOrder_terminal {env : Env} {db : Db} {oid : Nat} {o : Order}
    {its : List OrderItem} (op : Int) (hget : getByID db oid = .ok (o, its))
    (hterm : o.status ≠ StatusPending) :
    completeOrder env db oid op =
      (.error ("订单状态不正确，当前状态: " ++ o.status ++ ", 只有待处理订单可以完成"), db) := by
  rw [completeOrder, hget]
  simp only []
  rw [if_pos hterm]

theorem cancelOrder_terminal {env : Env} {db : Db} {oid : Nat} {o : Order}
    {its : List OrderItem} (op : Int) (hget : getByID db oid = .ok (o, its))
    (hterm : o.status ≠ StatusPending) :
    cancelOrder env db oid op =
      (.error ("订单状态不正确，当前状态: " ++ o.status ++ ", 只有待处理订单可以取消"), db) := by
  rw [cancelOrder, hget]
  simp only []
  rw [if_pos hterm]

theorem completeOrder_pending {env : Env} {db : Db} {oid : Nat} {o : Order}
    {its : List OrderItem} (op : Int) (hget : getByID db oid = .ok (o, its))
    (hp : o.status = StatusPending) (hst : env.stFail 0 = none) :
    (completeOrder env db oid op).1 = .ok () ∧
    (completeOrder env db oid op).2.flowers = db.flowers ∧
    (completeOrder env db oid op).2.users = db.users ∧
    (completeOrder env db oid op).2.nextId = db.nextId ∧
    (completeOrder env db oid op).2.orders = db.orders.map (fun so =>
      if so.ord.id == oid then { so with ord := { so.ord with status := StatusCompleted } }
      else so) ∧
    (completeOrder env db oid op).2.logs = db.logs ++
      (match env.lgFail 0 with
        | none => [NewOrderLog oid op "complete_order" StatusCompleted o.status]
        | some _ => []) := by
  have hne : ¬ o.status ≠ StatusPending := by simp [hp]
  have hany : (St.init db).db.orders.any (fun so => so.ord.id == oid) = true := by
    obtain ⟨hmem, hid⟩ := getByID_ok hget
    exact List.any_eq_true.mpr ⟨⟨o, its⟩, hmem, by simp [hid]⟩
  have hup := @updateStatus_of_mem env (St.init db) oid StatusCompleted hst hany
  rw [completeOrder, hget]
  simp only []
  rw [if_neg hne, hup]
  simp only []
  rw [createLog_db]
  refine ⟨?_, ?_, ?_, ?_, ?_, ?_⟩ <;> trivial

theorem cancelOrder_pending {env : Env} {db : Db} {oid : Nat} {o : Order}
    {its : List OrderItem} (op : Int) (hget : getByID db oid = .ok (o, its))
    (hp : o.status = StatusPending) (hus : ∀ n, env.usFail n = none)
    (hst : env.stFail 0 = none) :
    (cancelOrder env db oid op).1 = .ok () ∧
    (cancelOrder env db oid op).2.flowers = applyAdjs db.flowers (incAdjs its) ∧
    (cancelOrder env db oid op).2.users = db.users ∧
    (cancelOrder env db oid op).2.nextId = db.nextId ∧
    (cancelOrder env db oid op).2.orders = db.orders.map (fun so =>
      if so.ord.id == oid then { so with ord := { so.ord with status := StatusCancelled } }
      else so) ∧
    (cancelOrder env db oid op).2.logs = db.logs ++
      (match env.lgFail 0 with
        | none => [NewOrderLog oid op "cancel_order" StatusCancelled o.status]
        | some _ => []) := by
  have hne : ¬ o.status ≠ StatusPending := by simp [hp]
  obtain ⟨hmem, hid⟩ := getByID_ok hget
  obtain ⟨ro, rl, rn, ru, roc, rst, rlg⟩ := restoreStockLoop_stockFrame env its (St.init db)
  have rflow : (restoreStockLoop env (St.init db) its).db.flowers =
      applyAdjs db.flowers (incAdjs its) := restoreStockLoop_flowers env its (St.init db) hus
  have hany : (restoreStockLoop env (St.init db) its).db.orders.any
      (fun so => so.ord.id == oid) = true := by
    rw [ro]
    exact List.any_eq_true.mpr ⟨⟨o, its⟩, hmem, by simp [hid]⟩
  have hstn : env.stFail (restoreStockLoop env (St.init db) its).st = none := by
    rw [rst]; exact hst
  have hup := @updateStatus_of_mem env (restoreStockLoop env (St.init db) its) oid
    StatusCancelled hstn hany
  rw [cancelOrder, hget]
  simp only []
  rw [if_neg hne, hup]
  simp only []
  rw [createLog_db]
  refine ⟨?_, ?_, ?_, ?_, ?_, ?_⟩
  · trivial
  · exact rflow
  · exact ru
  · exact rn
  · rw [ro]
    rfl
  · rw [rl, rlg]
    rfl

theorem cancelOrder_pending_stFail {env : Env} {db : Db} {oid : Nat} {o : Order}
    {its : List OrderItem} {m : String} (op : Int) (hget : getByID db oid = .ok (o, its))
    (hp : o.status = StatusPending) (hus : ∀ n, env.usFail n = none)
    (hst : env.stFail 0 = some m) :
    (cancelOrder env db oid op).1 = .error ("更新订单状态失败: " ++ m) ∧
    (cancelOrder env db oid op).2.flowers = applyAdjs db.flowers (incAdjs its) ∧
    (cancelOrder env db oid op).2.users = db.users ∧
    (cancelOrder env db oid op).2.nextId = db.nextId ∧
    (cancelOrder env db oid op).2.orders = db.orders ∧
    (cancelOrder env db oid op).2.logs = db.logs := by
  have hne : ¬ o.status ≠ StatusPending := by simp [hp]
  obtain ⟨ro, rl, rn, ru, roc, rst, rlg⟩ := restoreStockLoop_stockFrame env its (St.init db)
  have rflow : (restoreStockLoop env (St.init db) its).db.flowers =
      applyAdjs db.flowers (incAdjs its) := restoreStockLoop_flowers env its (St.init db) hus
  have hstm : env.stFail (restoreStockLoop env (St.init db) its).st = some m := by
    rw [rst]; exact hst
  have hup : updateStatus env (restoreStockLoop env (St.init db) its) oid StatusCancelled
      = (.error m, { restoreStockLoop env (St.init db) its with
          st := (restoreStockLoop env (St.init db) its).st + 1 }) := by
    simp only [updateStatus, hstm]
  rw [cancelOrder, hget]
  simp only []
  rw [if_neg hne, hup]
  refine ⟨?_, ?_, ?_, ?_, ?_, ?_⟩
  · trivial
  · exact rflow
  · exact ru
  · exact rn
  · exact ro
  · exact rl

theorem completeOrder_flowers (env : Env) (db : Db) (oid : Nat) (op : Int) :
    (completeOrder env db oid op).2.flowers = db.flowers := by
  rw [completeOrder]
  cases hget : getByID db oid with
  | error e => rfl
  | ok p =>
    cases p with
    | mk o its =>
      simp only []
      by_cases hterm : o.status ≠ StatusPending
      · rw [if_pos hterm]
      · rw [if_neg hterm]
        cases hup : updateStatus env (St.init db) oid StatusCompleted with
        | mk r s1 =>
          have hfl : s1.db.flowers = db.flowers := by
            have := (updateStatus_frame env (St.init db) oid StatusCompleted).1
            rw [hup] at this
            exact this
          cases r with
          | error e =>
            simp only []
            exact hfl
          | ok u =>
            simp only []
            rw [createLog_db]
            exact hfl

theorem completeOrder_ok_inv {env : Env} {db : Db} {oid : Nat} {op : Int} {db' : Db}
    (h : completeOrder env db oid op = (.ok (), db')) :
    ∃ o its, getByID db oid = .ok (o, its) ∧ o.status = StatusPending ∧
      db'.flowers = db.flowers ∧
      db'.orders = db.orders.map (fun so =>
        if so.ord.id == oid then { so with ord := { so.ord with status := StatusCompleted } }
        else so) ∧
      db'.logs = db.logs ++ (match env.lgFail 0 with
        | none => [NewOrderLog oid op "complete_order" StatusCompleted o.status]
        | some _ => []) := by
  rw [completeOrder] at h
  cases hget : getByID db oid with
  | error e => rw [hget] at h; exact absurd (congrArg Prod.fst h) (by simp)
  | ok p =>
    cases p with
    | mk o its =>
      rw [hget] at h
      simp only [] at h
      by_cases hterm : o.status ≠ StatusPending
      · rw [if_pos hterm] at h
        exact absurd (congrArg Prod.fst h) (by simp)
      · rw [if_neg hterm] at h
        cases hup : updateStatus env (St.init db) oid StatusCompleted with
        | mk r s1 =>
          rw [hup] at h
          cases r with
          | error e => exact absurd (congrArg Prod.fst h) (by simp)
          | ok u =>
            simp only [] at h
            obtain ⟨hstn, hs1⟩ := updateStatus_ok hup
            have hdb' : db' = (createLog env s1
                (NewOrderLog oid op "complete_order" StatusCompleted o.status)).2.db := by
              have := congrArg Prod.snd h
              simpa using this.symm
            rw [createLog_db] at hdb'
            refine ⟨o, its, rfl, by simpa using hterm, ?_, ?_, ?_⟩
            · rw [hdb', hs1]
              rfl
            · rw [hdb', hs1]
              rfl
            · rw [hdb', hs1]
              rfl

theorem cancelOrder_ok_inv {env : Env} {db : Db} {oid : Nat} {op : Int} {db' : Db}
    (h : cancelOrder env db oid op = (.ok (), db')) :
    ∃ o its, getByID db oid = .ok (o, its) ∧ o.status = StatusPending ∧
      db'.orders = db.orders.map (fun so =>
        if so.ord.id == oid then { so with ord := { so.ord with status := StatusCancelled } }
        else so) ∧
      db'.logs = db.logs ++ (match env.lgFail 0 with
        | none => [NewOrderLog oid op "cancel_order" StatusCancelled o.status]
        | some _ => []) := by
  rw [cancelOrder] at h
  cases hget : getByID db oid with
  | error e => rw [hget] at h; exact absurd (congrArg Prod.fst h) (by simp)
  | ok p =>
    cases p with
    | mk o its =>
      rw [hget] at h
      simp only [] at h
      by_cases hterm : o.status ≠ StatusPending
      · rw [if_pos hterm] at h
        exact absurd (congrArg Prod.fst h) (by simp)
      · rw [if_neg hterm] at h
        obtain ⟨ro, rl, rn, ru, roc, rst, rlg⟩ :=
          restoreStockLoop_stockFrame env its (St.init db)
        cases hup : updateStatus env (restoreStockLoop env (St.init db) its) oid
            StatusCancelled with
        | mk r s1 =>
          rw [hup] at h
          cases r with
          | error e => exact absurd (congrArg Prod.fst h) (by simp)
          | ok u =>
            simp only [] at h
            obtain ⟨hstn, hs1⟩ := updateStatus_ok hup
            have hdb' : db' = (createLog env s1
                (NewOrderLog oid op "cancel_order" StatusCancelled o.status)).2.db := by
              have := congrArg Prod.snd h
              simpa using this.symm
            rw [createLog_db] at hdb'
            refine ⟨o, its, rfl, by simpa using hterm, ?_, ?_⟩
            · rw [hdb', hs1]
              simp only []
              rw [ro]
              rfl
            · rw [hdb', hs1]
              simp only []
              rw [rl, rlg]
              rfl

theorem orderCreate_err {env : Env} {s : St} {ord : Order} {items : List OrderItem}
    {e : String} {s' : St} (h : orderCreate env s ord items = (.error e, s')) :
    s'.db = s.db := by
  simp only [orderCreate] at h
  cases henv : env.ocFail s.oc with
  | some m =>
    rw [henv] at h
    simp only [Prod.mk.injEq] at h
    rw [← h.2]
  | none =>
    rw [henv] at h
    exact absurd (congrArg Prod.fst h) (by simp)

theorem exec_orders_err {env : Env} {s : St} {ord : Order} {items : List OrderItem}
    {e : String} {s' : St}
    (h : executeCreateOrderTransaction env s ord items = (.error e, s')) :
    s'.db.orders = s.db.orders := by
  rw [executeCreateOrderTransaction] at h
  cases hd : deductStockLoop env items s items with
  | mk r s1 =>
    rw [hd] at h
    have hfr1 : StockFrame s s1 := by
      have := deductStockLoop_stockFrame env items items s
      rwa [hd] at this
    cases r with
    | error e2 =>
      simp only [Prod.mk.injEq] at h
      rw [← h.2]
      exact hfr1.1
    | ok u =>
      simp only [] at h
      cases hoc : orderCreate env s1 ord items with
      | mk r2 s2 =>
        rw [hoc] at h
        cases r2 with
        | ok i => exact absurd (congrArg Prod.fst h) (by simp)
        | error e2 =>
          simp only [Prod.mk.injEq] at h
          have hs2 : s2.db = s1.db := orderCreate_err hoc
          have hfr3 : StockFrame s2 (rollbackStock env s2 none items) :=
            rollbackStock_stockFrame env none items s2
          rw [← h.2, hfr3.1, hs2]
          exact hfr1.1

theorem createOrder_err_orders {env : Env} {db : Db} {no : String} {uid : Int}
    {req : CreateOrderRequest} {e : String} {db' : Db}
    (h : createOrder env db no uid req = (.error e, db')) : db'.orders = db.orders := by
  rw [createOrder] at h
  cases hv : validateCreateRequest req with
  | some e2 =>
    rw [hv] at h
    simp only [Prod.mk.injEq] at h
    rw [← h.2]
  | none =>
    rw [hv] at h
    simp only [] at h
    cases hvap : validateAndPrepareItems db req.items with
    | error e2 =>
      rw [hvap] at h
      simp only [Prod.mk.injEq] at h
      rw [← h.2]
    | ok p =>
      rw [hvap] at h
      cases p with
      | mk items total =>
        simp only [] at h
        cases hex : executeCreateOrderTransaction env (St.init db)
            { NewOrder uid req.addressID no with totalAmount := ⟨total⟩ } items with
        | mk rx s1 =>
          rw [hex] at h
          cases rx with
          | ok oid => exact absurd (congrArg Prod.fst h) (by simp)
          | error e2 =>
            simp only [Prod.mk.injEq] at h
            rw [← h.2]
            exact exec_orders_err hex

theorem createOrder_orders (env : Env) (db : Db) (no : String) (uid : Int)
    (req : CreateOrderRequest) :
    ∀ so' ∈ (createOrder env db no uid req).2.orders,
      so' ∈ db.orders ∨ so'.ord.status = StatusPending := by
  intro so' hso'
  cases hc : createOrder env db no uid req with
  | mk r db' =>
    rw [hc] at hso'
    cases r with
    | ok rno =>
      obtain ⟨-, items, total, -, -, hord, -⟩ := createOrder_ok hc
      rw [hord] at hso'
      rcases List.mem_append.mp hso' with hL | hR
      · exact Or.inl hL
      · right
        have hso : so' = ⟨⟨db.nextId, no, uid, req.addressID, ⟨total⟩, StatusPending⟩,
            items.map (fun it => { it with orderID := db.nextId })⟩ := by
          simpa using hR
        rw [hso]
    | error e =>
      rw [createOrder_err_orders hc] at hso'
      exact Or.inl hso'

theorem completeOrder_orders (env : Env) (db : Db) (oid : Nat) (op : Int)
    (hu : ∀ so1 ∈ db.orders, ∀ so2 ∈ db.orders, so1.ord.id = so2.ord.id → so1 = so2) :
    ∀ so' ∈ (completeOrder env db oid op).2.orders,
      so' ∈ db.orders ∨
      ∃ so ∈ db.orders, so.ord.status = StatusPending ∧
        so' = { so with ord := { so.ord with status := StatusCompleted } } := by
  intro so' hso'
  rw [completeOrder] at hso'
  cases hget : getByID db oid with
  | error e => rw [hget] at hso'; exact Or.inl hso'
  | ok p =>
    cases p with
    | mk o its =>
      rw [hget] at hso'
      simp only [] at hso'
      by_cases hterm : o.status ≠ StatusPending
      · rw [if_pos hterm] at hso'
        exact Or.inl hso'
      · rw [if_neg hterm] at hso'
        cases hup : updateStatus env (St.init db) oid StatusCompleted with
        | mk r s1 =>
          rw [hup] at hso'
          cases r with
          | error e =>
            simp only [] at hso'
            rw [updateStatus_err hup] at hso'
            exact Or.inl hso'
          | ok u =>
            simp only [] at hso'
            rw [createLog_db] at hso'
            obtain ⟨-, hs1⟩ := updateStatus_ok hup
            rw [hs1] at hso'
            simp only [] at hso'
            obtain ⟨so, hsoMem, hmap⟩ := List.mem_map.mp hso'
            by_cases hcid : (so.ord.id == oid) = true
            · right
              have hpend : o.status = StatusPending := by simpa using hterm
              obtain ⟨hfound, hoid⟩ := getByID_ok hget
              have hsoeq : so = ⟨o, its⟩ := by
                refine hu so hsoMem ⟨o, its⟩ hfound ?_
                have : so.ord.id = oid := by simpa using hcid
                simp [this, hoid]
              refine ⟨so, hsoMem, ?_, ?_⟩
              · rw [hsoeq]; exact hpend
              · rw [← hmap, if_pos hcid]
            · left
              rw [← hmap, if_neg hcid]
              exact hsoMem

theorem cancelOrder_orders (env : Env) (db : Db) (oid : Nat) (op : Int)
    (hu : ∀ so1 ∈ db.orders, ∀ so2 ∈ db.orders, so1.ord.id = so2.ord.id → so1 = so2) :
    ∀ so' ∈ (cancelOrder env db oid op).2.orders,
      so' ∈ db.orders ∨
      ∃ so ∈ db.orders, so.ord.status = StatusPending ∧
        so' = { so with ord := { so.ord with status := StatusCancelled } } := by
  intro so' hso'
  rw [cancelOrder] at hso'
  cases hget : getByID db oid with
  | error e => rw [hget] at hso'; exact Or.inl hso'
  | ok p =>
    cases p with
    | mk o its =>
      rw [hget] at hso'
      simp only [] at hso'
      by_cases hterm : o.status ≠ StatusPending
      · rw [if_pos hterm] at hso'
        exact Or.inl hso'
      · rw [if_neg hterm] at hso'
        obtain ⟨ro, -, -, -, -, -, -⟩ := restoreStockLoop_stockFrame env its (St.init db)
        cases hup : updateStatus env (restoreStockLoop env (St.init db) its) oid
            StatusCancelled with
        | mk r s1 =>
          rw [hup] at hso'
          cases r with
          | error e =>
            simp only [] at hso'
            rw [updateStatus_err hup, ro] at hso'
            exact Or.inl hso'
          | ok u =>
            simp only [] at hso'
            rw [createLog_db] at hso'
            obtain ⟨-, hs1⟩ := updateStatus_ok hup
            rw [hs1] at hso'
            simp only [] at hso'
            rw [ro] at hso'
            obtain ⟨so, hsoMem, hmap⟩ := List.mem_map.mp hso'
            by_cases hcid : (so.ord.id == oid) = true
            · right
              have hpend : o.status = StatusPending := by simpa using hterm
              obtain ⟨hfound, hoid⟩ := getByID_ok hget
              have hsoeq : so = ⟨o, its⟩ := by
                refine hu so hsoMem ⟨o, its⟩ hfound ?_
                have : so.ord.id = oid := by simpa using hcid
                simp [this, hoid]
              refine ⟨so, hsoMem, ?_, ?_⟩
              · rw [hsoeq]; exact hpend
              · rw [← hmap, if_pos hcid]
            · left
              rw [← hmap, if_neg hcid]
              exact hsoMem

theorem createOrder_lg_fst (env : Env) (f : Nat → Option String) (db : Db) (no : String)
    (uid : Int) (req : CreateOrderRequest) :
    (createOrder { env with lgFail := f } db no uid req).1 =
      (createOrder env db no uid req).1 := by
  rw [createOrder, createOrder]
  cases validateCreateRequest req with
  | some e => rfl
  | none =>
    simp only []
    cases validateAndPrepareItems db req.items with
    | error e => rfl
    | ok p =>
      cases p with
      | mk items total =>
        simp only []
        rw [exec_lg]
        cases executeCreateOrderTransaction env (St.init db)
            { NewOrder uid req.addressID no with totalAmount := ⟨total⟩ } items with
        | mk rx s1 =>
          cases rx with
          | error e => rfl
          | ok oid => rfl

theorem completeOrder_lg_fst (env : Env) (f : Nat → Option String) (db : Db) (oid : Nat)
    (op : Int) :
    (completeOrder { env with lgFail := f } db oid op).1 =
      (completeOrder env db oid op).1 := by
  rw [completeOrder, completeOrder]
  cases getByID db oid with
  | error e => rfl
  | ok p =>
    cases p with
    | mk o its =>
      simp only []
      by_cases hterm : o.status ≠ StatusPending
      · rw [if_pos hterm, if_pos hterm]
      · rw [if_neg hterm, if_neg hterm, updateStatus_lg]
        cases updateStatus env (St.init db) oid StatusCompleted with
        | mk r s1 =>
          cases r with
          | error e => rfl
          | ok u => rfl

theorem cancelOrder_lg_fst (env : Env) (f : Nat → Option String) (db : Db) (oid : Nat)
    (op : Int) :
    (cancelOrder { env with lgFail := f } db oid op).1 =
      (cancelOrder env db oid op).1 := by
  rw [cancelOrder, cancelOrder]
  cases getByID db oid with
  | error e => rfl
  | ok p =>
    cases p with
    | mk o its =>
      simp only []
      by_cases hterm : o.status ≠ StatusPending
      · rw [if_pos hterm, if_pos hterm]
      · rw [if_neg hterm, if_neg hterm, restoreStockLoop_lg, updateStatus_lg]
        cases updateStatus env (restoreStockLoop env (St.init db) its) oid StatusCancelled with
        | mk r s1 =>
          cases r with
          | error e => rfl
          | ok u => rfl

/-! ## Arithmetic facts about the running total -/

theorem foldl_wrap64_eq_sum (l : List Int) :
    ∀ a : Int, 0 ≤ a → (∀ x ∈ l, 0 ≤ x) → a + l.sum < 9223372036854775808 →
      l.foldl (fun acc x => wrap64 (acc + x)) a = a + l.sum := by
  induction l with
  | nil =>
    intro a _ _ _
    simp
  | cons x rest ih =>
    intro a ha hnn hb
    have hx : 0 ≤ x := hnn x (List.mem_cons_self x rest)
    have hrest : 0 ≤ rest.sum :=
      List.sum_nonneg (fun y hy => hnn y (List.mem_cons_of_mem x hy))
    rw [List.sum_cons] at hb
    have hax : wrap64 (a + x) = a + x := wrap64_eq_self (by omega) (by omega)
    rw [List.foldl_cons, hax,
      ih (a + x) (by omega) (fun y hy => hnn y (List.mem_cons_of_mem x hy)) (by omega),
      List.sum_cons]
    omega

theorem sumSubtotals_map_orderID (items : List OrderItem) (k : Nat) :
    sumSubtotals (items.map (fun it => { it with orderID := k })) = sumSubtotals items := by
  simp only [sumSubtotals, List.map_map]
  rfl

/-! ## Claim theorems -/

/-- C1: contrary to the claim, a CreateOrder call that fails partway through
the stock adjustments can return its failure with a stock counter still
decremented.  With two request lines for the same SKU (stock 10), the first
decrement (−1) succeeds, the second (−2) fails at the database layer;
`rollbackStock` walks the item list and stops at the *first* item whose SKU
equals the failed item's SKU, which here is the already-decremented first
line, so nothing is rolled back: the call returns an error, no order is
persisted, yet the stock counter reads 9 instead of 10. -/
theorem C1_createOrder_failure_stock_not_restored :
    (createOrder envUs1 dbTen "ORD20260101000001" 7 reqDup).1 =
      .error "扣减库存失败: disk I/O error" ∧
    stockOf dbTen "FLW001" = some 10 ∧
    stockOf (createOrder envUs1 dbTen "ORD20260101000001" 7 reqDup).2 "FLW001" = some 9 ∧
    (createOrder envUs1 dbTen "ORD20260101000001" 7 reqDup).2.orders = [] := by
  refine ⟨rfl, rfl, ?_, rfl⟩
  rfl

/-- C5: contrary to the claim, two concurrent CreateOrder calls for the same
item may both succeed although their combined quantity exceeds stock.  The
engine reads stock in `validateAndPrepareItems` and decrements it in a
separate `UPDATE` with no lock or guard, so under the interleaving
V₁ V₂ D₁ D₂ (both validations read the same snapshot before either
decrement) both transactions commit and the counter goes to −10. -/
theorem C5_concurrent_creates_both_succeed :
    validateAndPrepareItems dbTen reqTen.items =
      .ok ([NewOrderItem 0 "FLW001" "红玫瑰" 10 1000], 10000) ∧
    (executeCreateOrderTransaction Env.clean (St.init dbTen)
      { NewOrder 1 1 "ORDA" with totalAmount := ⟨10000⟩ }
      [NewOrderItem 0 "FLW001" "红玫瑰" 10 1000]).1 = .ok 1 ∧
    (executeCreateOrderTransaction Env.clean
      (St.init (executeCreateOrderTransaction Env.clean (St.init dbTen)
        { NewOrder 1 1 "ORDA" with totalAmount := ⟨10000⟩ }
        [NewOrderItem 0 "FLW001" "红玫瑰" 10 1000]).2.db)
      { NewOrder 2 1 "ORDB" with totalAmount := ⟨10000⟩ }
      [NewOrderItem 0 "FLW001" "红玫瑰" 10 1000]).1 = .ok 2 ∧
    stockOf (executeCreateOrderTransaction Env.clean
      (St.init (executeCreateOrderTransaction Env.clean (St.init dbTen)
        { NewOrder 1 1 "ORDA" with totalAmount := ⟨10000⟩ }
        [NewOrderItem 0 "FLW001" "红玫瑰" 10 1000]).2.db)
      { NewOrder 2 1 "ORDB" with totalAmount := ⟨10000⟩ }
      [NewOrderItem 0 "FLW001" "红玫瑰" 10 1000]).2.db "FLW001" = some (-10) ∧
    stockOf dbTen "FLW001" = some 10 := by
  refine ⟨rfl, rfl, rfl, ?_, rfl⟩
  rfl

/-- C6: contrary to the claim, the engine's failures are plain formatted
strings, not structured typed values.  The insufficient-stock failure is the
string `库存不足: <name> (库存: <d>, 需要: <d>)` with the fields baked into
the text, and `HandleGetOrder` chooses the HTTP status code by substring
matching on the error text (`"not found"` ⇒ 404, `"无权"` ⇒ 403). -/
theorem C6_errors_are_strings_matched_by_substring :
    (createOrder Env.clean dbFive "ORD20260101000001" 1 reqTen).1 =
      .error "库存不足: 红玫瑰 (库存: 5, 需要: 10)" ∧
    (createOrder Env.clean dbFive "ORD20260101000001" 1 reqTen).2 = dbFive ∧
    getOrderErrStatusCode "order not found: ORDX123" = 404 ∧
    getOrderErrStatusCode "无权访问该订单" = 403 ∧
    getOrderErrStatusCode "库存不足: 红玫瑰 (库存: 5, 需要: 10)" = 400 := by
  refine ⟨rfl, rfl, rfl, rfl, ?_⟩
  rfl

/-- C2 (counterexample): the subtotal is computed in wrapping 64-bit
arithmetic, so for a catalog price of `2 ^ 62` cents and quantity 4 the
persisted subtotal is 0, not `2 ^ 64`: the claim's equation
`subtotal = unit_price × quantity` fails on this successful order. -/
theorem C2_subtotal_overflow_counterexample :
    (createOrder Env.clean dbHuge "ORDC2" 1 reqHuge).1 = .ok "ORDC2" ∧
    ∃ so ∈ (createOrder Env.clean dbHuge "ORDC2" 1 reqHuge).2.orders,
      ∃ oi ∈ so.items, ¬ oi.subtotal.value = oi.unitPrice.value * oi.quantity := by
  have horders : (createOrder Env.clean dbHuge "ORDC2" 1 reqHuge).2.orders =
      [⟨⟨1, "ORDC2", 1, 1, ⟨0⟩, StatusPending⟩,
        [⟨1, "FLW001", "天价花", 4, ⟨4611686018427387904⟩, ⟨0⟩⟩]⟩] := by rfl
  refine ⟨rfl, ⟨⟨1, "ORDC2", 1, 1, ⟨0⟩, StatusPending⟩,
      [⟨1, "FLW001", "天价花", 4, ⟨4611686018427387904⟩, ⟨0⟩⟩]⟩, ?_,
    ⟨1, "FLW001", "天价花", 4, ⟨4611686018427387904⟩, ⟨0⟩⟩, ?_, ?_⟩
  · rw [horders]
    exact List.mem_singleton_self _
  · exact List.mem_singleton_self _
  · decide

/-- C7 (counterexample): `GetOrder` has no staff bypass — it compares the
requester only against the order's owner.  In `dbStaff` user 2 holds the
staff role `"clerk"` but does not own the order, and the lookup succeeds,
yet `GetOrder` returns the authorization error instead of the order view,
contradicting the claim that any staff-role actor receives the view. -/
theorem C7_staff_denied_counterexample :
    (∃ u ∈ dbStaff.users, u.id = 2 ∧ u.role = "clerk") ∧
    getByOrderNo dbStaff "ORD20260101000001" =
      .ok (⟨1, "ORD20260101000001", 1, 1, ⟨10000⟩, StatusPending⟩,
        [⟨1, "FLW001", "红玫瑰", 10, ⟨1000⟩, ⟨10000⟩⟩]) ∧
    getOrder dbStaff 2 "ORD20260101000001" = .error "无权访问该订单" := by
  exact ⟨⟨⟨2, "bob", "clerk"⟩, by decide, rfl, rfl⟩, rfl, rfl⟩

/-- C2 (amended): for every successful CreateOrder call whose catalog prices
and stocks are bounded so that no int64 overflow can occur (every
`salePrice * stock ≤ B` with `#lines * B < 2 ^ 63`), the persisted order's
total equals the exact sum of its line-item subtotals, each subtotal equals
the catalog unit sale price times the requested quantity, and name and unit
price are snapshotted from the Stock Store record (the request carries no
caller-supplied name or price at all). -/
theorem C2_totals_and_snapshot (env : Env) (db : Db) (no : String) (uid : Int)
    (req : CreateOrderRequest) (r : String) (db' : Db) (B : Int)
    (hB : ∀ f ∈ db.flowers, 0 ≤ f.salePrice.value ∧ f.salePrice.value * f.stock ≤ B)
    (hBnn : 0 ≤ B)
    (hlen : (req.items.length : Int) * B < 9223372036854775808)
    (hok : createOrder env db no uid req = (.ok r, db')) :
    ∃ so ∈ db'.orders, so.ord.orderNo = no ∧ so.ord.status = StatusPending ∧
      so.ord.totalAmount.value = sumSubtotals so.items ∧
      ∀ oi ∈ so.items, oi.subtotal.value = oi.unitPrice.value * oi.quantity ∧
        ∃ f ∈ db.flowers, f.sku = oi.flowerSKU ∧ oi.flowerName = f.name ∧
          oi.unitPrice = f.salePrice := by
  obtain ⟨-, items, total, hvap, -, hord, -, -, -⟩ := createOrder_ok hok
  obtain ⟨nl, hnl, ht, hlen2, hP⟩ := vapAux_ok hvap
  have hitems : items = nl := by simpa using hnl
  subst hitems
  have hfact : ∀ oi ∈ items,
      oi.subtotal.value = oi.unitPrice.value * oi.quantity ∧
      0 ≤ oi.subtotal.value ∧ oi.subtotal.value ≤ B ∧
      ∃ f ∈ db.flowers, f.sku = oi.flowerSKU ∧ oi.flowerName = f.name ∧
        oi.unitPrice = f.salePrice := by
    intro oi hoi
    obtain ⟨rq, f, hrq, hfind, hact, hqpos, hqle, hoieq⟩ := hP oi hoi
    have hfmem : f ∈ db.flowers := List.mem_of_find?_eq_some hfind
    have hfsku : f.sku = rq.flowerSKU := by
      have := List.find?_some hfind
      simpa using this
    obtain ⟨hpnn, hpB⟩ := hB f hfmem
    have hprod_nn : 0 ≤ f.salePrice.value * rq.quantity := mul_nonneg hpnn (by omega)
    have hprod_le : f.salePrice.value * rq.quantity ≤ B :=
      le_trans (mul_le_mul_of_nonneg_left hqle hpnn) hpB
    have hlen1 : (1 : Int) ≤ (req.items.length : Int) := by
      have := List.length_pos.mpr (List.ne_nil_of_mem hrq)
      exact_mod_cast this
    have hBbound : B < 9223372036854775808 := by
      have : B ≤ (req.items.length : Int) * B := le_mul_of_one_le_left hBnn hlen1
      omega
    have hsub : oi.subtotal.value = f.salePrice.value * rq.quantity := by
      rw [hoieq]
      exact wrap64_eq_self (by omega) (by omega)
    refine ⟨?_, ?_, ?_, f, hfmem, ?_, ?_, ?_⟩
    · rw [hoieq]
      exact wrap64_eq_self (by omega) (by omega)
    · rw [hsub]; exact hprod_nn
    · rw [hsub]; exact hprod_le
    · rw [hoieq]; exact hfsku
    · rw [hoieq]
      rfl
    · rw [hoieq]
      rfl
  have hsumle : (items.map (fun oi => oi.subtotal.value)).sum ≤
      (req.items.length : Int) * B := by
    have h1 : (items.map (fun oi => oi.subtotal.value)).sum ≤
        (items.map (fun oi => oi.subtotal.value)).length • B := by
      refine List.sum_le_card_nsmul _ _ ?_
      intro x hx
      obtain ⟨oi, hoi, hx'⟩ := List.mem_map.mp hx
      rw [← hx']
      exact (hfact oi hoi).2.2.1
    rw [List.length_map, hlen2, nsmul_eq_mul] at h1
    exact h1
  have hsumnn : ∀ x ∈ items.map (fun oi => oi.subtotal.value), 0 ≤ x := by
    intro x hx
    obtain ⟨oi, hoi, hx'⟩ := List.mem_map.mp hx
    rw [← hx']
    exact (hfact oi hoi).2.1
  have hsum : total = sumSubtotals items := by
    rw [ht, ← List.foldl_map (fun oi : OrderItem => oi.subtotal.value)
      (fun a x => wrap64 (a + x))]
    rw [foldl_wrap64_eq_sum _ 0 le_rfl hsumnn (by
      have := hsumle
      omega)]
    simp [sumSubtotals]
  refine ⟨⟨⟨db.nextId, no, uid, req.addressID, ⟨total⟩, StatusPending⟩,
      items.map (fun it => { it with orderID := db.nextId })⟩, ?_, rfl, rfl, ?_, ?_⟩
  · rw [hord]
    exact List.mem_append_right _ (List.mem_singleton_self _)
  · rw [sumSubtotals_map_orderID]
    exact hsum
  · intro oi hoi
    obtain ⟨oi0, hoi0, hupd⟩ := List.mem_map.mp hoi
    obtain ⟨ha, -, -, hsnap⟩ := hfact oi0 hoi0
    rw [← hupd]
    exact ⟨ha, hsnap⟩

/-- Witness for the amended C2 on a concrete run: two lines against the
ten-unit catalog item, bound `B = 10000`. -/
theorem C2_totals_and_snapshot_witness :
    ∃ so ∈ (createOrder Env.clean dbTen "ORDW" 1 reqDup).2.orders,
      so.ord.orderNo = "ORDW" ∧ so.ord.status = StatusPending ∧
      so.ord.totalAmount.value = sumSubtotals so.items ∧
      ∀ oi ∈ so.items, oi.subtotal.value = oi.unitPrice.value * oi.quantity ∧
        ∃ f ∈ dbTen.flowers, f.sku = oi.flowerSKU ∧ oi.flowerName = f.name ∧
          oi.unitPrice = f.salePrice :=
  C2_totals_and_snapshot Env.clean dbTen "ORDW" 1 reqDup "ORDW" _ 10000
    (by decide) (by decide) (by decide) rfl

/-- C3: creating an order (any successful run, any failure environment) and
then cancelling the still-pending order with a healthy store restores every
stock counter — for every SKU, not only the referenced ones — to exactly its
value before the creation; the cancellation itself succeeds.  Requires the
store invariants that stocks are 64-bit values and that existing order ids
are below the auto-increment counter. -/
theorem C3_create_then_cancel_net_zero (env : Env) (db : Db) (no : String)
    (uid op : Int) (req : CreateOrderRequest) (r : String) (db1 : Db)
    (hwfS : wrappedStocks db.flowers)
    (hwfO : ∀ so ∈ db.orders, so.ord.id < db.nextId)
    (hok : createOrder env db no uid req = (.ok r, db1)) :
    (cancelOrder Env.clean db1 db.nextId op).1 = .ok () ∧
    ∀ sku, stockOf (cancelOrder Env.clean db1 db.nextId op).2 sku = stockOf db sku := by
  obtain ⟨-, items, total, hvap, hfl, hord, -, -, -⟩ := createOrder_ok hok
  have hfind : db1.orders.find? (fun so => so.ord.id == db.nextId) =
      some ⟨⟨db.nextId, no, uid, req.addressID, ⟨total⟩, StatusPending⟩,
        items.map (fun it => { it with orderID := db.nextId })⟩ := by
    rw [hord]
    exact find?_id_append_new hwfO _ rfl
  have hget : getByID db1 db.nextId =
      .ok (⟨db.nextId, no, uid, req.addressID, ⟨total⟩, StatusPending⟩,
        items.map (fun it => { it with orderID := db.nextId })) := by
    rw [getByID, hfind]
  obtain ⟨c1, cfl, -, -, -, -⟩ :=
    @cancelOrder_pending Env.clean db1 db.nextId _ _ op hget rfl (fun n => rfl) rfl
  refine ⟨c1, ?_⟩
  intro sku
  have hinc : incAdjs (items.map (fun it => { it with orderID := db.nextId })) =
      incAdjs items := by
    simp only [incAdjs, List.map_map]
    rfl
  rw [stockOf, stockOf, cfl, hinc, hfl, ← applyAdjs_append,
    stockOfL_applyAdjs _ sku hwfS]
  cases hv : stockOfL db.flowers sku with
  | none => rfl
  | some v =>
    obtain ⟨f, hfmem, hfv⟩ := stockOfL_mem hv
    have hw : wrap64 v = v := hfv ▸ hwfS f hfmem
    have hzero : sumAdj (decAdjs items ++ incAdjs items) sku = 0 := by
      rw [sumAdj_append]
      exact sumAdj_dec_inc items sku
    simp [hzero, hw]

/-- Witness for C3: create with duplicate lines (1 + 2 units) against stock
10, cancel the created order, and the counter is back at 10. -/
theorem C3_create_then_cancel_net_zero_witness :
    (cancelOrder Env.clean (createOrder Env.clean dbTen "ORDW" 1 reqDup).2 1 9).1 =
      .ok () ∧
    stockOf (cancelOrder Env.clean (createOrder Env.clean dbTen "ORDW" 1 reqDup).2 1 9).2
      "FLW001" = some 10 ∧
    stockOf dbTen "FLW001" = some 10 := by
  have h := C3_create_then_cancel_net_zero Env.clean dbTen "ORDW" 1 9 reqDup "ORDW" _
    (by unfold wrappedStocks; decide) (by decide) rfl
  exact ⟨h.1, (h.2 "FLW001").trans rfl, rfl⟩

/-- C4: out of a terminal status (`completed` or `cancelled`) no transition
is possible — both CompleteOrder and CancelOrder return the
invalid-transition error whose text names the current status and leave the
entire store (orders and stock included) unchanged — and across all three
mutating operations the only status values ever assigned are: `completed`
or `cancelled` written over an order that was `pending`, or `pending` on a
newly created order.  Requires order ids to be unique in the store. -/
theorem C4_terminal_states_frozen (env : Env) (db : Db) (oid : Nat) (op : Int)
    (hu : ∀ so1 ∈ db.orders, ∀ so2 ∈ db.orders, so1.ord.id = so2.ord.id → so1 = so2) :
    (∀ o its, getByID db oid = .ok (o, its) →
      (o.status = StatusCompleted ∨ o.status = StatusCancelled) →
      completeOrder env db oid op =
        (.error ("订单状态不正确，当前状态: " ++ o.status ++ ", 只有待处理订单可以完成"), db) ∧
      cancelOrder env db oid op =
        (.error ("订单状态不正确，当前状态: " ++ o.status ++ ", 只有待处理订单可以取消"), db)) ∧
    (∀ so' ∈ (completeOrder env db oid op).2.orders, so' ∈ db.orders ∨
      ∃ so ∈ db.orders, so.ord.status = StatusPending ∧
        so' = { so with ord := { so.ord with status := StatusCompleted } }) ∧
    (∀ so' ∈ (cancelOrder env db oid op).2.orders, so' ∈ db.orders ∨
      ∃ so ∈ db.orders, so.ord.status = StatusPending ∧
        so' = { so with ord := { so.ord with status := StatusCancelled } }) ∧
    (∀ no uid req, ∀ so' ∈ (createOrder env db no uid req).2.orders,
      so' ∈ db.orders ∨ so'.ord.status = StatusPending) := by
  refine ⟨?_, completeOrder_orders env db oid op hu, cancelOrder_orders env db oid op hu,
    fun no uid req => createOrder_orders env db no uid req⟩
  intro o its hget hterm
  have hne : o.status ≠ StatusPending := by
    rcases hterm with h | h <;> rw [h] <;> decide
  exact ⟨completeOrder_terminal op hget hne, cancelOrder_terminal op hget hne⟩

/-- Witness for C4: completing or cancelling the already-completed order 2
of `dbPend` fails with the error naming `completed` and leaves the store
untouched. -/
theorem C4_terminal_states_frozen_witness :
    completeOrder Env.clean dbPend 2 9 =
      (.error "订单状态不正确，当前状态: completed, 只有待处理订单可以完成", dbPend) ∧
    cancelOrder Env.clean dbPend 2 9 =
      (.error "订单状态不正确，当前状态: completed, 只有待处理订单可以取消", dbPend) := by
  have h := (C4_terminal_states_frozen Env.clean dbPend 2 9 (by decide)).1
    ⟨2, "ORD20260101000002", 1, 1, ⟨1000⟩, StatusCompleted⟩
    [⟨2, "FLW001", "红玫瑰", 1, ⟨1000⟩, ⟨1000⟩⟩] rfl (Or.inl rfl)
  exact h

/-- C7 (amended): for an order that exists, `GetOrder` fails with the
authorization error exactly when the requesting actor is not the order's
owner — the actor's role is never consulted, so there is no staff bypass —
and the owner receives the order view. -/
theorem C7_owner_only_access (db : Db) (uid : Int) (no : String) (o : Order)
    (its : List OrderItem) (hget : getByOrderNo db no = .ok (o, its)) :
    (getOrder db uid no = .error "无权访问该订单" ↔ o.userID ≠ uid) ∧
    (o.userID = uid → getOrder db uid no = .ok (o, its)) := by
  have hrun : getOrder db uid no =
      (if o.userID ≠ uid then .error "无权访问该订单" else .ok (o, its)) := by
    rw [getOrder, hget]
  constructor
  · constructor
    · intro h
      by_cases hou : o.userID = uid
      · rw [hrun, if_neg (by simpa using hou)] at h
        exact absurd h (by simp)
      · exact hou
    · intro hne
      rw [hrun, if_pos hne]
  · intro he
    rw [hrun, if_neg (by simp [he])]

/-- Witness for the amended C7: the requester with id 2 is not the owner of
the order (owner id 1), and the access check rejects them. -/
theorem C7_owner_only_access_witness :
    (getOrder dbStaff 2 "ORD20260101000001" = .error "无权访问该订单" ↔
      (⟨1, "ORD20260101000001", 1, 1, ⟨10000⟩, StatusPending⟩ : Order).userID ≠ 2) ∧
    ((⟨1, "ORD20260101000001", 1, 1, ⟨10000⟩, StatusPending⟩ : Order).userID = 2 →
      getOrder dbStaff 2 "ORD20260101000001" =
        .ok (⟨1, "ORD20260101000001", 1, 1, ⟨10000⟩, StatusPending⟩,
          [⟨1, "FLW001", "红玫瑰", 10, ⟨1000⟩, ⟨10000⟩⟩])) :=
  C7_owner_only_access dbStaff 2 "ORD20260101000001" _ _ rfl

/-- C8: `CompleteOrder` never touches any stock counter — the flowers table
is unchanged on every path — and behaves case by case as specified: absent
order ⇒ wrapped not-found error and untouched store; non-pending order ⇒
invalid-transition error naming the current status and untouched store;
pending order with a healthy status write ⇒ success with exactly that
order's status set to `completed`. -/
theorem C8_completeOrder_no_stock_effect (env : Env) (db : Db) (oid : Nat) (op : Int) :
    (completeOrder env db oid op).2.flowers = db.flowers ∧
    (∀ e, getByID db oid = .error e →
      completeOrder env db oid op = (.error ("订单不存在: " ++ e), db)) ∧
    (∀ o its, getByID db oid = .ok (o, its) → o.status ≠ StatusPending →
      completeOrder env db oid op =
        (.error ("订单状态不正确，当前状态: " ++ o.status ++ ", 只有待处理订单可以完成"), db)) ∧
    (∀ o its, getByID db oid = .ok (o, its) → o.status = StatusPending →
      env.stFail 0 = none →
      (completeOrder env db oid op).1 = .ok () ∧
      (completeOrder env db oid op).2.orders = db.orders.map (fun so =>
        if so.ord.id == oid then { so with ord := { so.ord with status := StatusCompleted } }
        else so)) := by
  refine ⟨completeOrder_flowers env db oid op,
    fun e he => completeOrder_notfound op he,
    fun o its hget hs => completeOrder_terminal op hget hs,
    fun o its hget hp hst => ?_⟩
  obtain ⟨h1, -, -, -, h5, -⟩ := completeOrder_pending op hget hp hst
  exact ⟨h1, h5⟩

/-- Witness for C8 on `dbPend`: stock frame on a successful completion of
the pending order 1, not-found for the absent id 3, invalid transition for
the completed order 2. -/
theorem C8_completeOrder_no_stock_effect_witness :
    (completeOrder Env.clean dbPend 1 9).2.flowers = dbPend.flowers ∧
    completeOrder Env.clean dbPend 3 9 =
      (.error "订单不存在: order not found: 3", dbPend) ∧
    completeOrder Env.clean dbPend 2 9 =
      (.error "订单状态不正确，当前状态: completed, 只有待处理订单可以完成", dbPend) ∧
    (completeOrder Env.clean dbPend 1 9).1 = .ok () := by
  refine ⟨(C8_completeOrder_no_stock_effect Env.clean dbPend 1 9).1, ?_, ?_, ?_⟩
  · exact (C8_completeOrder_no_stock_effect Env.clean dbPend 3 9).2.1
      "order not found: 3" rfl
  · exact (C8_completeOrder_no_stock_effect Env.clean dbPend 2 9).2.2.1
      ⟨2, "ORD20260101000002", 1, 1, ⟨1000⟩, StatusCompleted⟩
      [⟨2, "FLW001", "红玫瑰", 1, ⟨1000⟩, ⟨1000⟩⟩] rfl (by decide)
  · exact ((C8_completeOrder_no_stock_effect Env.clean dbPend 1 9).2.2.2
      ⟨1, "ORD20260101000001", 1, 1, ⟨10000⟩, StatusPending⟩
      [⟨1, "FLW001", "红玫瑰", 10, ⟨1000⟩, ⟨10000⟩⟩] rfl rfl rfl).1

/-- C9: the caller-visible result of all three mutating operations is
independent of the audit-log failure stream (a failed audit append is never
the operation's error), and each successful operation whose audit statement
executes appends exactly one entry: `create_order` with empty prior status
and new status `pending`, `complete_order` with prior `pending` and new
`completed`, `cancel_order` with prior `pending` and new `cancelled`. -/
theorem C9_audit_log_best_effort (env : Env) (f : Nat → Option String) (db : Db)
    (no : String) (uid op : Int) (req : CreateOrderRequest) (oid : Nat) :
    ((createOrder { env with lgFail := f } db no uid req).1 =
      (createOrder env db no uid req).1) ∧
    ((completeOrder { env with lgFail := f } db oid op).1 =
      (completeOrder env db oid op).1) ∧
    ((cancelOrder { env with lgFail := f } db oid op).1 =
      (cancelOrder env db oid op).1) ∧
    (∀ r db', createOrder env db no uid req = (.ok r, db') → env.lgFail 0 = none →
      db'.logs = db.logs ++ [NewOrderLog db.nextId uid "create_order" StatusPending ""]) ∧
    (∀ db', completeOrder env db oid op = (.ok (), db') → env.lgFail 0 = none →
      ∃ o its, getByID db oid = .ok (o, its) ∧ o.status = StatusPending ∧
        db'.logs = db.logs ++ [NewOrderLog oid op "complete_order" StatusCompleted o.status]) ∧
    (∀ db', cancelOrder env db oid op = (.ok (), db') → env.lgFail 0 = none →
      ∃ o its, getByID db oid = .ok (o, its) ∧ o.status = StatusPending ∧
        db'.logs = db.logs ++ [NewOrderLog oid op "cancel_order" StatusCancelled o.status]) := by
  refine ⟨createOrder_lg_fst env f db no uid req, completeOrder_lg_fst env f db oid op,
    cancelOrder_lg_fst env f db oid op, ?_, ?_, ?_⟩
  · intro r db' hok hlg
    obtain ⟨-, items, total, -, -, -, -, -, hlogs⟩ := createOrder_ok hok
    rw [hlogs, hlg]
  · intro db' hok hlg
    obtain ⟨o, its, hget, hp, -, -, hlogs⟩ := completeOrder_ok_inv hok
    exact ⟨o, its, hget, hp, by rw [hlogs, hlg]⟩
  · intro db' hok hlg
    obtain ⟨o, its, hget, hp, -, hlogs⟩ := cancelOrder_ok_inv hok
    exact ⟨o, its, hget, hp, by rw [hlogs, hlg]⟩

/-- Witness for C9 on `dbPend`: an injected audit failure does not change
the visible result of a creation, and successful clean-environment
operations append their single audit entry. -/
theorem C9_audit_log_best_effort_witness :
    ((createOrder { Env.clean with lgFail := fun _ => some "log write failed" } dbPend
        "ORDW" 1 reqTen).1 = (createOrder Env.clean dbPend "ORDW" 1 reqTen).1) ∧
    ((createOrder Env.clean dbPend "ORDW" 1 reqTen).2.logs =
      dbPend.logs ++ [NewOrderLog 3 1 "create_order" StatusPending ""]) ∧
    (∃ o its, getByID dbPend 1 = .ok (o, its) ∧ o.status = StatusPending ∧
      (completeOrder Env.clean dbPend 1 9).2.logs =
        dbPend.logs ++ [NewOrderLog 1 9 "complete_order" StatusCompleted o.status]) ∧
    (∃ o its, getByID dbPend 1 = .ok (o, its) ∧ o.status = StatusPending ∧
      (cancelOrder Env.clean dbPend 1 9).2.logs =
        dbPend.logs ++ [NewOrderLog 1 9 "cancel_order" StatusCancelled o.status]) := by
  have h := C9_audit_log_best_effort Env.clean (fun _ => some "log write failed") dbPend
    "ORDW" 1 9 reqTen 1
  exact ⟨h.1, h.2.2.2.1 "ORDW" _ rfl rfl, h.2.2.2.2.1 _ rfl rfl, h.2.2.2.2.2 _ rfl rfl⟩

/-- C10: on a pending order, when every stock-restoration statement succeeds
but the status update fails at the database layer, CancelOrder returns the
wrapped status-update error while the stock increments stay applied and the
order remains pending (orders table unchanged); a later clean retry then
succeeds and applies the same per-SKU increments a second time, so the final
counter is the original plus twice the restored quantities. -/
theorem C10_cancel_stfail_double_restore (env : Env) (db : Db) (oid : Nat) (op : Int)
    (o : Order) (its : List OrderItem) (m : String)
    (hget : getByID db oid = .ok (o, its)) (hp : o.status = StatusPending)
    (hus : ∀ n, env.usFail n = none) (hst : env.stFail 0 = some m)
    (hwfS : wrappedStocks db.flowers) :
    (cancelOrder env db oid op).1 = .error ("更新订单状态失败: " ++ m) ∧
    (cancelOrder env db oid op).2.flowers = applyAdjs db.flowers (incAdjs its) ∧
    (cancelOrder env db oid op).2.orders = db.orders ∧
    (cancelOrder Env.clean (cancelOrder env db oid op).2 oid op).1 = .ok () ∧
    ∀ sku, stockOf (cancelOrder Env.clean (cancelOrder env db oid op).2 oid op).2 sku =
      (stockOf db sku).map (fun v => wrap64 (v + 2 * sumAdj (incAdjs its) sku)) := by
  obtain ⟨e1, efl, eus, enid, eord, elg⟩ := cancelOrder_pending_stFail op hget hp hus hst
  have hget1 : getByID (cancelOrder env db oid op).2 oid = .ok (o, its) := by
    unfold getByID at hget ⊢
    rw [eord]
    exact hget
  obtain ⟨r1, rfl2, -, -, -, -⟩ :=
    @cancelOrder_pending Env.clean ((cancelOrder env db oid op).2) oid _ _ op hget1 hp
      (fun n => rfl) rfl
  refine ⟨e1, efl, eord, r1, ?_⟩
  intro sku
  rw [stockOf, stockOf, rfl2, efl, ← applyAdjs_append, stockOfL_applyAdjs _ sku hwfS]
  have h2 : sumAdj (incAdjs its ++ incAdjs its) sku = 2 * sumAdj (incAdjs its) sku := by
    rw [sumAdj_append]
    ring
  rw [h2]

/-- Witness for C10 on `dbPend`: the first cancellation hits a failing
status update, stock rises from 90 to 100 while the order stays pending;
the clean retry succeeds and the counter ends at 110 — the ten units were
restored twice. -/
theorem C10_cancel_stfail_double_restore_witness :
    (cancelOrder envSt0 dbPend 1 9).1 = .error "更新订单状态失败: connection reset" ∧
    (cancelOrder envSt0 dbPend 1 9).2.orders = dbPend.orders ∧
    (cancelOrder Env.clean (cancelOrder envSt0 dbPend 1 9).2 1 9).1 = .ok () ∧
    stockOf (cancelOrder Env.clean (cancelOrder envSt0 dbPend 1 9).2 1 9).2 "FLW001" =
      some 110 ∧
    stockOf dbPend "FLW001" = some 90 := by
  have h := C10_cancel_stfail_double_restore envSt0 dbPend 1 9
    ⟨1, "ORD20260101000001", 1, 1, ⟨10000⟩, StatusPending⟩
    [⟨1, "FLW001", "红玫瑰", 10, ⟨1000⟩, ⟨10000⟩⟩] "connection reset"
    rfl rfl (fun n => rfl) rfl (by unfold wrappedStocks; decide)
  refine ⟨h.1, h.2.2.1, h.2.2.2.1, ?_, rfl⟩
  rw [h.2.2.2.2 "FLW001"]
  rfl

end FlowerSales
